import Mathlib

/-!
# Access-log common-format line formatter (`middlewares/accesslog/logger_formatters.go`)

A shallow embedding of `CommonLogFormatter.Format`, `toLog`, `quoted`,
`extractJWTSubject`, `parseJWTSubject` and `addBase64Padding`, together with models of
the Go standard-library routines they call (`regexp`, `strings.Replacer`,
`encoding/base64`, `encoding/json`, `unicode/utf8`, `fmt`, `time`).

Go strings are byte sequences, so every string of the program is a list of bytes here.
-/

namespace AccessLog

set_option maxRecDepth 100000

/-! ## Bytes and text -/

/-- A Go `string` or `[]byte`: a sequence of bytes (each below 256). -/
abbrev Bytes := List Nat

/-- Go `utf8.RuneError`, the replacement character U+FFFD. -/
def runeError : Nat := 0xFFFD

/-- Go `utf8.EncodeRune`: the UTF-8 encoding of a code point; surrogates and values
above U+10FFFF are encoded as U+FFFD. -/
def encodeRune (r : Nat) : Bytes :=
  if r ≤ 0x7F then [r]
  else if r ≤ 0x7FF then [0xC0 + r / 64, 0x80 + r % 64]
  else if 0x10FFFF < r ∨ (0xD800 ≤ r ∧ r ≤ 0xDFFF) then [0xEF, 0xBF, 0xBD]
  else if r ≤ 0xFFFF then [0xE0 + r / 4096, 0x80 + r / 64 % 64, 0x80 + r % 64]
  else [0xF0 + r / 262144, 0x80 + r / 4096 % 64, 0x80 + r / 64 % 64, 0x80 + r % 64]

/-- The bytes of a string literal (its UTF-8 encoding), used to write Go string
constants and expected outputs. -/
def ofStr (s : String) : Bytes :=
  s.data.flatMap (fun c => encodeRune c.toNat)

/-- Every element is a byte. -/
def IsBytes (s : Bytes) : Prop := ∀ b ∈ s, b < 256

/-- Go `utf8.DecodeRune`: the first code point of `p` and the number of bytes it
occupies; a malformed or truncated sequence gives `(RuneError, 1)` and the empty input
`(RuneError, 0)`. -/
def decodeRune : Bytes → Nat × Nat
  | [] => (runeError, 0)
  | p0 :: rest =>
    if p0 < 0x80 then (p0, 1)
    else if p0 < 0xC2 ∨ 0xF4 < p0 then (runeError, 1)
    else
      let lo := if p0 = 0xE0 then 0xA0 else if p0 = 0xF0 then 0x90 else 0x80
      let hi := if p0 = 0xED then 0x9F else if p0 = 0xF4 then 0x8F else 0xBF
      match rest with
      | [] => (runeError, 1)
      | b1 :: rest1 =>
        if p0 < 0xE0 then
          if b1 < lo ∨ hi < b1 then (runeError, 1)
          else ((p0 % 32) * 64 + b1 % 64, 2)
        else
          match rest1 with
          | [] => (runeError, 1)
          | b2 :: rest2 =>
            if p0 < 0xF0 then
              if b1 < lo ∨ hi < b1 then (runeError, 1)
              else if b2 < 0x80 ∨ 0xBF < b2 then (runeError, 1)
              else ((p0 % 16) * 4096 + (b1 % 64) * 64 + b2 % 64, 3)
            else
              match rest2 with
              | [] => (runeError, 1)
              | b3 :: _ =>
                if b1 < lo ∨ hi < b1 then (runeError, 1)
                else if b2 < 0x80 ∨ 0xBF < b2 then (runeError, 1)
                else if b3 < 0x80 ∨ 0xBF < b3 then (runeError, 1)
                else ((p0 % 8) * 262144 + (b1 % 64) * 4096 + (b2 % 64) * 64 + b3 % 64, 4)

/-- Go `utf8.Valid`: the bytes are a sequence of well-formed UTF-8 encodings. The
first argument bounds the number of code points read. -/
def validUTF8Aux : Nat → Bytes → Bool
  | _, [] => true
  | 0, _ :: _ => false
  | fuel + 1, b :: bs =>
    let rs := decodeRune (b :: bs)
    if rs.1 = runeError ∧ rs.2 = 1 then false
    else validUTF8Aux fuel ((b :: bs).drop rs.2)

/-- Go `utf8.Valid` on a byte string. -/
def validUTF8 (s : Bytes) : Bool := validUTF8Aux s.length s

/-! ## `encoding/base64`, standard alphabet with padding -/

/-- The decode map of `base64.StdEncoding`: the 6-bit value of an alphabet byte, `none`
for every other byte (the `0xff` entries of the table). -/
def stdDecodeMap (b : Nat) : Option Nat :=
  if 65 ≤ b ∧ b ≤ 90 then some (b - 65)
  else if 97 ≤ b ∧ b ≤ 122 then some (b - 71)
  else if 48 ≤ b ∧ b ≤ 57 then some (b + 4)
  else if b = 43 then some 62
  else if b = 47 then some 63
  else none

/-- The 24-bit value assembled from four 6-bit digits. -/
def quantumVal (s0 s1 s2 s3 : Nat) : Nat :=
  s0 * 262144 + s1 * 4096 + s2 * 64 + s3

/-- Decoding of the input, newlines already removed, four characters at a time. A
final quantum may end in `=` or `==`; padding anywhere else, a character outside the
alphabet, or a truncated quantum is a `CorruptInputError` (`none`). The encoding is
not strict: unused trailing bits of a padded quantum are not checked. -/
def decodeQuanta : Bytes → Option Bytes
  | [] => some []
  | a :: b :: c :: d :: rest =>
    match stdDecodeMap a, stdDecodeMap b with
    | some s0, some s1 =>
      match stdDecodeMap c, stdDecodeMap d with
      | some s2, some s3 =>
        match decodeQuanta rest with
        | some out =>
          some (quantumVal s0 s1 s2 s3 / 65536 % 256 :: quantumVal s0 s1 s2 s3 / 256 % 256
            :: quantumVal s0 s1 s2 s3 % 256 :: out)
        | none => none
      | some s2, none =>
        if d = 61 ∧ rest = [] then
          some [quantumVal s0 s1 s2 0 / 65536 % 256, quantumVal s0 s1 s2 0 / 256 % 256]
        else none
      | none, _ =>
        if c = 61 ∧ d = 61 ∧ rest = [] then some [quantumVal s0 s1 0 0 / 65536 % 256]
        else none
    | _, _ => none
  | _ => none

/-- Go `base64.StdEncoding.DecodeString`: carriage returns and line feeds are ignored,
the rest is decoded in quanta; `none` stands for a non-nil error. -/
def stdDecodeString (s : Bytes) : Option Bytes :=
  decodeQuanta (s.filter (fun b => !(b == 10 || b == 13)))

/-! ## `encoding/json`, as used by `json.Unmarshal(data, &jwtPayload{})` -/

/-- JSON insignificant whitespace: space, tab, carriage return, line feed. -/
def isSpace (b : Nat) : Bool := b == 32 || b == 9 || b == 13 || b == 10

/-- An ASCII decimal digit. -/
def isDigit (b : Nat) : Bool := 48 ≤ b && b ≤ 57

/-- The rest of the input after leading whitespace. -/
def skipWS (s : Bytes) : Bytes := s.dropWhile isSpace

/-- The value of a hexadecimal digit. -/
def hexVal (b : Nat) : Option Nat :=
  if 48 ≤ b ∧ b ≤ 57 then some (b - 48)
  else if 97 ≤ b ∧ b ≤ 102 then some (b - 87)
  else if 65 ≤ b ∧ b ≤ 70 then some (b - 55)
  else none

/-- The `getu4` helper of the decoder: the 16-bit value of a `\uXXXX` escape at the
start of `s`, `none` when `s` does not start with one. -/
def getu4 (s : Bytes) : Option Nat :=
  match s with
  | 92 :: 117 :: a :: b :: c :: d :: _ =>
    match hexVal a, hexVal b, hexVal c, hexVal d with
    | some x, some y, some z, some w => some (((x * 16 + y) * 16 + z) * 16 + w)
    | _, _, _, _ => none
  | _ => none

/-- Go `utf16.DecodeRune`: the code point of a surrogate pair, U+FFFD when the pair is
not a high surrogate followed by a low one. -/
def utf16DecodeRune (r1 r2 : Nat) : Nat :=
  if 0xD800 ≤ r1 ∧ r1 < 0xDC00 ∧ 0xDC00 ≤ r2 ∧ r2 < 0xE000 then
    (r1 - 0xD800) * 1024 + (r2 - 0xDC00) + 0x10000
  else runeError

/-- The byte a single-character escape stands for (`\"`, `\\`, `\/`, `\b`, `\f`, `\n`,
`\r`, `\t`); any other escape character is a syntax error. -/
def unescape (e : Nat) : Option Nat :=
  if e = 34 ∨ e = 92 ∨ e = 47 then some e
  else if e = 98 then some 8
  else if e = 102 then some 12
  else if e = 110 then some 10
  else if e = 114 then some 13
  else if e = 116 then some 9
  else none

/-- A JSON string literal whose opening quote has been read: the scanner's validity
check and the decoder's `unquote` in one pass. Returns the decoded text and the input
after the closing quote; `none` is a syntax error. Escapes are resolved, a surrogate
pair of `\u` escapes is combined, a lone surrogate becomes U+FFFD, and bytes from 0x80
are coerced to well-formed UTF-8 (`DecodeRune` then `EncodeRune`). The first argument
bounds the number of steps; the length of the input is always enough. -/
def parseString : Nat → Bytes → Option (Bytes × Bytes)
  | 0, _ => none
  | _ + 1, [] => none
  | fuel + 1, c :: r =>
    if c = 34 then some ([], r)
    else if c = 92 then
      match r with
      | [] => none
      | e :: r1 =>
        if e = 117 then
          match getu4 (c :: r) with
          | none => none
          | some rr =>
            if 0xD800 ≤ rr ∧ rr < 0xE000 then
              match getu4 (r1.drop 4) with
              | some rr1 =>
                if utf16DecodeRune rr rr1 ≠ runeError then
                  (parseString fuel (r1.drop 10)).map
                    (fun o => (encodeRune (utf16DecodeRune rr rr1) ++ o.1, o.2))
                else (parseString fuel (r1.drop 4)).map
                    (fun o => (encodeRune runeError ++ o.1, o.2))
              | none => (parseString fuel (r1.drop 4)).map
                    (fun o => (encodeRune runeError ++ o.1, o.2))
            else (parseString fuel (r1.drop 4)).map (fun o => (encodeRune rr ++ o.1, o.2))
        else
          match unescape e with
          | some b => (parseString fuel r1).map (fun o => (b :: o.1, o.2))
          | none => none
    else if c < 32 then none
    else if c < 128 then (parseString fuel r).map (fun o => (c :: o.1, o.2))
    else
      (parseString fuel ((c :: r).drop (decodeRune (c :: r)).2)).map
        (fun o => (encodeRune (decodeRune (c :: r)).1 ++ o.1, o.2))

/-- The optional exponent of a number and what follows the number. -/
def parseExp (s : Bytes) : Option Bytes :=
  match s with
  | e :: r =>
    if e = 101 ∨ e = 69 then
      match (match r with
        | sg :: r1 => if sg = 43 ∨ sg = 45 then r1 else r
        | [] => r) with
      | d :: r2 => if isDigit d then some (r2.dropWhile isDigit) else none
      | [] => none
    else some s
  | [] => some s

/-- The optional fraction and exponent of a number and what follows the number. -/
def parseFrac (s : Bytes) : Option Bytes :=
  match s with
  | p :: r =>
    if p = 46 then
      match r with
      | d :: r1 => if isDigit d then parseExp (r1.dropWhile isDigit) else none
      | [] => none
    else parseExp s
  | [] => some s

/-- A JSON number (`-? (0 | [1-9][0-9]*) (. [0-9]+)? ([eE] [+-]? [0-9]+)?`): the input
after it, `none` when the input does not start with a number. -/
def parseNumber (s : Bytes) : Option Bytes :=
  match (match s with
    | m :: r => if m = 45 then r else s
    | [] => s) with
  | d :: r =>
    if d = 48 then parseFrac r
    else if isDigit d then parseFrac (r.dropWhile isDigit)
    else none
  | [] => none

/-- What the decoder distinguishes about a JSON value that is to be stored into a Go
`string` field: its kind, and the decoded text when it is a string. -/
inductive Lit
  | null
  | bool
  | number
  | str (s : Bytes)
  | array
  | object
  deriving DecidableEq, Repr

mutual

/-- One JSON value at the start of the input (leading whitespace already skipped): its
kind and the input after it; `none` is a syntax error. The first argument bounds the
number of values read; the length of the input is always enough. -/
def parseValue : Nat → Bytes → Option (Lit × Bytes)
  | 0, _ => none
  | _ + 1, [] => none
  | fuel + 1, c :: r =>
    if c = 123 then
      match parseObject fuel r with
      | some o => some (Lit.object, o.2)
      | none => none
    else if c = 91 then
      match skipWS r with
      | [] => none
      | e :: r1 =>
        if e = 93 then some (Lit.array, r1)
        else
          match parseElems fuel (e :: r1) with
          | some rest => some (Lit.array, rest)
          | none => none
    else if c = 34 then
      match parseString r.length r with
      | some o => some (Lit.str o.1, o.2)
      | none => none
    else if c = 116 then
      match r with
      | 114 :: 117 :: 101 :: rest => some (Lit.bool, rest)
      | _ => none
    else if c = 102 then
      match r with
      | 97 :: 108 :: 115 :: 101 :: rest => some (Lit.bool, rest)
      | _ => none
    else if c = 110 then
      match r with
      | 117 :: 108 :: 108 :: rest => some (Lit.null, rest)
      | _ => none
    else
      match parseNumber (c :: r) with
      | some rest => some (Lit.number, rest)
      | none => none

/-- The elements of a non-empty array, up to and including the closing bracket: the
input after the bracket. -/
def parseElems : Nat → Bytes → Option Bytes
  | 0, _ => none
  | fuel + 1, s =>
    match parseValue fuel s with
    | none => none
    | some v =>
      match skipWS v.2 with
      | [] => none
      | e :: r =>
        if e = 44 then parseElems fuel (skipWS r)
        else if e = 93 then some r
        else none

/-- The members of a non-empty object, each `"key" : value`, up to and including the
closing brace: the decoded keys with the kinds of their values, in order, and the input
after the brace. -/
def parseMembers : Nat → Bytes → Option (List (Bytes × Lit) × Bytes)
  | 0, _ => none
  | _ + 1, [] => none
  | fuel + 1, q :: r =>
    if q = 34 then
      match parseString r.length r with
      | none => none
      | some k =>
        match skipWS k.2 with
        | [] => none
        | col :: r1 =>
          if col = 58 then
            match parseValue fuel (skipWS r1) with
            | none => none
            | some v =>
              match skipWS v.2 with
              | [] => none
              | e :: r2 =>
                if e = 44 then
                  match parseMembers fuel (skipWS r2) with
                  | some ms => some ((k.1, v.1) :: ms.1, ms.2)
                  | none => none
                else if e = 125 then some ([(k.1, v.1)], r2)
                else none
          else none
    else none

/-- An object whose opening brace has been read: its members and the input after the
closing brace. -/
def parseObject : Nat → Bytes → Option (List (Bytes × Lit) × Bytes)
  | 0, _ => none
  | fuel + 1, s =>
    match skipWS s with
    | [] => none
    | e :: r =>
      if e = 125 then some ([], r)
      else parseMembers fuel (e :: r)

end

/-- A complete JSON text as `json.Unmarshal` sees it: an object with its members, or
a value of another kind. -/
inductive Doc
  | object (members : List (Bytes × Lit))
  | value (v : Lit)
  deriving DecidableEq, Repr

/-- The whole input as one JSON text, surrounded by optional whitespace; `none` is the
`SyntaxError` of the validity check that `json.Unmarshal` runs first. -/
def parseDoc (data : Bytes) : Option Doc :=
  match skipWS data with
  | [] => none
  | c :: r =>
    if c = 123 then
      match parseObject (data.length + 1) r with
      | some o => if skipWS o.2 = [] then some (Doc.object o.1) else none
      | none => none
    else
      match parseValue (data.length + 1) (c :: r) with
      | some v => if skipWS v.2 = [] then some (Doc.value v.1) else none
      | none => none

/-- Whether an object key selects the struct field tagged `json:"sub"`. The decoder
matches field names case-insensitively: `s`, `u`, `b` in either case, and for the first
letter also U+017F (LATIN SMALL LETTER LONG S, bytes `C5 BF`), which folds to `s`. -/
def matchesSub (key : Bytes) : Bool :=
  match key with
  | [a, b, c] => (a == 115 || a == 83) && (b == 117 || b == 85) && (c == 98 || c == 66)
  | [l1, l2, b, c] => l1 == 0xC5 && l2 == 0xBF && (b == 117 || b == 85) && (c == 98 || c == 66)
  | _ => false

/-- The decoder's walk over the members of the top-level object, in order: the value
of `payload.Subject` and whether an `UnmarshalTypeError` has been saved. A string
stored under a matching key replaces the subject, `null` leaves it, any other kind
saves an error and leaves it; members with other keys are skipped. -/
def decodeMembers : List (Bytes × Lit) → Bytes × Bool → Bytes × Bool
  | [], st => st
  | (key, v) :: ms, st =>
    if matchesSub key then
      match v with
      | Lit.str s => decodeMembers ms (s, st.2)
      | Lit.null => decodeMembers ms st
      | _ => decodeMembers ms (st.1, true)
    else decodeMembers ms st

/-- The Go type `jwtPayload`: a struct with the single field `Subject string`, tagged
`json:"sub"`. -/
structure jwtPayload where
  Subject : Bytes
  deriving DecidableEq, Repr

/-- Go `json.Unmarshal(data, &payload)` for `payload := jwtPayload{}`: the payload
after decoding, or `none` when the returned error is not nil (a syntax error, or a
type error: a top-level value that is neither an object nor `null`, or a `sub` member
that is neither a string nor `null`). -/
def jsonUnmarshal (data : Bytes) : Option jwtPayload :=
  match parseDoc data with
  | none => none
  | some (Doc.object ms) =>
    if (decodeMembers ms ([], false)).2 then none
    else some ⟨(decodeMembers ms ([], false)).1⟩
  | some (Doc.value Lit.null) => some ⟨[]⟩
  | some (Doc.value _) => none

/-! ## The token subject extractor -/

/-- The byte is not a full stop: the character class `[^\.]`. -/
def notDot (b : Nat) : Bool := b != 46

/-- The program's `authorizationRegexp.FindStringSubmatch`, for the pattern
`^JWT [^\.]+\.([^\.]+)\.[^\.]+$`: the empty list when the pattern does not match,
otherwise the whole match followed by the text of the capture group. The input must be
`JWT `, a non-empty run without full stops, a full stop, a second such run (the
group), a full stop, and a third such run up to the end of the input. -/
def authorizationRegexp (s : Bytes) : List Bytes :=
  if (ofStr "JWT ").isPrefixOf s then
    match (s.drop 4).dropWhile notDot with
    | [] => []
    | _ :: t1 =>
      match t1.dropWhile notDot with
      | [] => []
      | _ :: t2 =>
        if (s.drop 4).takeWhile notDot ≠ [] ∧ t1.takeWhile notDot ≠ [] ∧ t2 ≠ []
            ∧ t2.all notDot then
          [s, t1.takeWhile notDot]
        else []
  else []

/-- The replacement of one byte by `strings.NewReplacer("-", "+", "_", "/")`. -/
def replaceByte (b : Nat) : Nat :=
  if b = 45 then 43 else if b = 95 then 47 else b

/-- The program's `base64URLReplacer.Replace`, a `strings.Replacer` for the pairs
`-` to `+` and `_` to `/`: every byte is replaced on its own. -/
def base64URLReplacer (s : Bytes) : Bytes :=
  s.map replaceByte

/-- The function `addBase64Padding` of the source. -/
def addBase64Padding (s : Bytes) : Bytes :=
  if s.length % 4 = 0 then s
  else if s.length % 4 = 2 then s ++ ofStr "=="
  else if s.length % 4 = 3 then s ++ ofStr "="
  else []

/-- The function `parseJWTSubject` of the source. -/
def parseJWTSubject (s : Bytes) : Bytes :=
  let result := authorizationRegexp s
  if result.length = 0 then []
  else
    let payloadBase64 := addBase64Padding (result.getD 1 [])
    if payloadBase64.length = 0 then []
    else
      let payloadBase64Url := base64URLReplacer payloadBase64
      match stdDecodeString payloadBase64Url with
      | none => []
      | some payloadJSON =>
        match jsonUnmarshal payloadJSON with
        | none => []
        | some payload => payload.Subject

/-- Lines 102 to 120 of `parseJWTSubject`: what the function does with the capture
group once the header has matched (pad, translate, base64-decode, unmarshal, take
`Subject`). -/
def subjectOfPayload (p : Bytes) : Bytes :=
  let payloadBase64 := addBase64Padding p
  if payloadBase64.length = 0 then []
  else
    let payloadBase64Url := base64URLReplacer payloadBase64
    match stdDecodeString payloadBase64Url with
    | none => []
    | some payloadJSON =>
      match jsonUnmarshal payloadJSON with
      | none => []
      | some payload => payload.Subject

/-! ## Field values and `fmt` -/

/-- The Go integer types. -/
inductive IntKind
  | int | int8 | int16 | int32 | int64 | uint | uint8 | uint16 | uint32 | uint64
  deriving DecidableEq, Repr

/-- The name of an integer type, as `fmt` prints it. -/
def IntKind.name : IntKind → String
  | .int => "int" | .int8 => "int8" | .int16 => "int16" | .int32 => "int32"
  | .int64 => "int64" | .uint => "uint" | .uint8 => "uint8" | .uint16 => "uint16"
  | .uint32 => "uint32" | .uint64 => "uint64"

/-- A Go `time.Time`, by the calendar fields of its wall clock and the offset of its
zone in seconds east of UTC. -/
structure Time where
  year : Int
  month : Nat
  day : Nat
  hour : Nat
  minute : Nat
  second : Nat
  offset : Int
  deriving DecidableEq, Repr

/-- A non-nil Go value of interface type, as found in `entry.Data`. A value whose type
has a `String() string` method (`time.Time` and `time.Duration` among them) carries the
text that method returns; a value of any other type carries what `fmt` prints for it
under `%s` and under `%v`. -/
inductive Value
  | str (s : Bytes)
  | int (k : IntKind) (n : Int)
  | time (t : Time) (text : Bytes)
  | duration (ns : Int) (text : Bytes)
  | stringer (text : Bytes)
  | other (sfmt vfmt : Bytes)
  deriving DecidableEq, Repr

/-- The decimal digits of a natural number; the first argument bounds their number. -/
def natDigits : Nat → Nat → Bytes
  | 0, _ => []
  | fuel + 1, n => if n < 10 then [48 + n] else natDigits fuel (n / 10) ++ [48 + n % 10]

/-- A natural number in decimal. -/
def decimalNat (n : Nat) : Bytes := natDigits (n + 1) n

/-- An integer in decimal, as `fmt` prints it under `%d` and `%v`. -/
def decimal (n : Int) : Bytes :=
  if n < 0 then 45 :: decimalNat n.natAbs else decimalNat n.natAbs

/-- The number a string of decimal digits stands for. -/
def digitsValue (ds : Bytes) : Nat :=
  ds.foldl (fun acc d => acc * 10 + (d - 48)) 0

/-- An operand of `fmt.Fprintf` under the verb `%s`; `none` is the nil interface. -/
def fmtS : Option Value → Bytes
  | none => ofStr "%!s(<nil>)"
  | some (.str s) => s
  | some (.int k n) => ofStr "%!s(" ++ ofStr k.name ++ ofStr "=" ++ decimal n ++ ofStr ")"
  | some (.time _ text) => text
  | some (.duration _ text) => text
  | some (.stringer text) => text
  | some (.other sfmt _) => sfmt

/-- An operand of `fmt.Fprintf` under the verb `%v`; `none` is the nil interface. -/
def fmtV : Option Value → Bytes
  | none => ofStr "<nil>"
  | some (.str s) => s
  | some (.int _ n) => decimal n
  | some (.time _ text) => text
  | some (.duration _ text) => text
  | some (.stringer text) => text
  | some (.other _ vfmt) => vfmt

/-- The function `quoted` of the source. -/
def quoted (s : Bytes) (defaultValue : Bytes) : Bytes :=
  if s.length = 0 then defaultValue
  else ofStr "\"" ++ s ++ ofStr "\""

/-- The function `toLog` of the source, on a value whose `String` method returns
(`toLogHeld` covers a value whose `String` method panics). -/
def toLog (v : Option Value) (defaultValue : Bytes) : Value :=
  match v with
  | none => .str defaultValue
  | some (.str s) => .str (quoted s defaultValue)
  | some (.time _ text) => .str (quoted text defaultValue)
  | some (.duration _ text) => .str (quoted text defaultValue)
  | some (.stringer text) => .str (quoted text defaultValue)
  | some (.int k n) => .int k n
  | some (.other sfmt vfmt) => .other sfmt vfmt

/-- The function `extractJWTSubject` of the source. -/
def extractJWTSubject (v : Option Value) (defaultValue : Bytes) : Bytes :=
  match v with
  | some (.str s) =>
    let subject := parseJWTSubject s
    if subject.length = 0 then defaultValue
    else subject
  | _ => defaultValue

/-! ## `time.Time.Format` -/

/-- Go `appendInt` of package `time`: a sign for a negative number, then its decimal
digits, left-padded with zeros to the width. -/
def appendInt (x : Int) (width : Nat) : Bytes :=
  (if x < 0 then [45] else [])
    ++ List.replicate (width - (decimalNat x.natAbs).length) 48 ++ decimalNat x.natAbs

/-- The three-letter English month names of package `time`. -/
def shortMonthNames : List String :=
  ["Jan", "Feb", "Mar", "Apr", "May", "Jun", "Jul", "Aug", "Sep", "Oct", "Nov", "Dec"]

/-- The constant `commonLogTimeFormat` of the source. -/
def commonLogTimeFormat : String := "02/Jan/2006:15:04:05 -0700"

/-- Go `t.Format(commonLogTimeFormat)`: the layout elements `02`, `Jan`, `2006`, `15`,
`04`, `05` and `-0700` with the literal text between them. The zone is printed from
its offset in whole minutes, truncated toward zero. -/
def Time.formatCommonLog (t : Time) : Bytes :=
  appendInt t.day 2 ++ ofStr "/" ++ ofStr (shortMonthNames.getD (t.month - 1) "")
    ++ ofStr "/" ++ appendInt t.year 4 ++ ofStr ":" ++ appendInt t.hour 2 ++ ofStr ":"
    ++ appendInt t.minute 2 ++ ofStr ":" ++ appendInt t.second 2 ++ ofStr " "
    ++ (if Int.tdiv t.offset 60 < 0 then [45] else [43])
    ++ appendInt ((Int.tdiv t.offset 60).natAbs / 60) 2
    ++ appendInt ((Int.tdiv t.offset 60).natAbs % 60) 2

/-! ## The line formatter -/

/-- The constant `defaultValue` of the source. -/
def defaultValue : Bytes := ofStr "-"

/-- Modelled from the spec: the key constants `StartUTC`, `Duration`, `ClientHost`,
`RequestMethod`, `RequestPath`, `RequestProtocol`, `OriginStatus`, `OriginContentSize`,
`RequestCount`, `FrontendName` and `BackendURL` are declared in another file of the
package; each is the string of its own name, as the data model lists the fields. -/
def StartUTC : String := "StartUTC"

/-- Modelled from the spec: see `StartUTC`. -/
def Duration : String := "Duration"

/-- Modelled from the spec: see `StartUTC`. -/
def ClientHost : String := "ClientHost"

/-- Modelled from the spec: see `StartUTC`. -/
def RequestMethod : String := "RequestMethod"

/-- Modelled from the spec: see `StartUTC`. -/
def RequestPath : String := "RequestPath"

/-- Modelled from the spec: see `StartUTC`. -/
def RequestProtocol : String := "RequestProtocol"

/-- Modelled from the spec: see `StartUTC`. -/
def OriginStatus : String := "OriginStatus"

/-- Modelled from the spec: see `StartUTC`. -/
def OriginContentSize : String := "OriginContentSize"

/-- Modelled from the spec: see `StartUTC`. -/
def RequestCount : String := "RequestCount"

/-- Modelled from the spec: see `StartUTC`. -/
def FrontendName : String := "FrontendName"

/-- Modelled from the spec: see `StartUTC`. -/
def BackendURL : String := "BackendURL"

/-- A `logrus.Entry`, by its `Data` map (`map[string]interface{}`): looking up a key
that is absent, or that holds a nil value, gives `none`. -/
structure Entry where
  Data : String → Option Value

/-- The entry without the field `key`. -/
def Entry.remove (entry : Entry) (key : String) : Entry :=
  ⟨fun k => if k = key then none else entry.Data k⟩

/-- The entry with `v` stored under `key`. -/
def Entry.set (entry : Entry) (key : String) (v : Value) : Entry :=
  ⟨fun k => if k = key then some v else entry.Data k⟩

/-- The entry with no fields. -/
def Entry.empty : Entry := ⟨fun _ => none⟩

/-- The fourteen operands of the `fmt.Fprintf` call of `Format`, each printed under
its verb of the format string. -/
structure Operands where
  clientHost : Bytes
  subject : Bytes
  timestamp : Bytes
  method : Bytes
  path : Bytes
  protocol : Bytes
  status : Bytes
  size : Bytes
  referer : Bytes
  userAgent : Bytes
  count : Bytes
  frontend : Bytes
  backend : Bytes
  elapsed : Bytes
  deriving DecidableEq, Repr

/-- The format string of `Format`,
`"%s - %s [%s] \"%s %s %s\" %v %v %s %s %v %s %s %dms\n"`, applied to its printed
operands. -/
def Operands.line (o : Operands) : Bytes :=
  o.clientHost ++ ofStr " - " ++ o.subject ++ ofStr " [" ++ o.timestamp ++ ofStr "] \""
    ++ o.method ++ ofStr " " ++ o.path ++ ofStr " " ++ o.protocol ++ ofStr "\" "
    ++ o.status ++ ofStr " " ++ o.size ++ ofStr " " ++ o.referer ++ ofStr " "
    ++ o.userAgent ++ ofStr " " ++ o.count ++ ofStr " " ++ o.frontend ++ ofStr " "
    ++ o.backend ++ ofStr " " ++ o.elapsed ++ ofStr "ms\n"

/-- The line up to the backend operand: everything before the space that precedes the
elapsed milliseconds. -/
def Operands.front (o : Operands) : Bytes :=
  o.clientHost ++ ofStr " - " ++ o.subject ++ ofStr " [" ++ o.timestamp ++ ofStr "] \""
    ++ o.method ++ ofStr " " ++ o.path ++ ofStr " " ++ o.protocol ++ ofStr "\" "
    ++ o.status ++ ofStr " " ++ o.size ++ ofStr " " ++ o.referer ++ ofStr " "
    ++ o.userAgent ++ ofStr " " ++ o.count ++ ofStr " " ++ o.frontend ++ ofStr " "
    ++ o.backend

/-- The operands of the `fmt.Fprintf` call of `Format` for a start time and a duration
in nanoseconds: `%s` for the client host, the subject, the timestamp, the request
line, the referer, the user agent, the frontend and the backend; `%v` for the status,
the content size and the request count; `%d` for the elapsed milliseconds, the
nanoseconds divided by 1000000 as Go divides integers. -/
def operands (entry : Entry) (start : Time) (ns : Int) : Operands where
  clientHost := fmtS (entry.Data ClientHost)
  subject := fmtS (some (.str (extractJWTSubject (entry.Data "request_Authorization") (ofStr "-"))))
  timestamp := fmtS (some (.str start.formatCommonLog))
  method := fmtS (entry.Data RequestMethod)
  path := fmtS (entry.Data RequestPath)
  protocol := fmtS (entry.Data RequestProtocol)
  status := fmtV (some (toLog (entry.Data OriginStatus) defaultValue))
  size := fmtV (some (toLog (entry.Data OriginContentSize) defaultValue))
  referer := fmtS (some (toLog (entry.Data "request_Referer") (ofStr "\"-\"")))
  userAgent := fmtS (some (toLog (entry.Data "request_User-Agent") (ofStr "\"-\"")))
  count := fmtV (some (toLog (entry.Data RequestCount) defaultValue))
  frontend := fmtS (some (toLog (entry.Data FrontendName) defaultValue))
  backend := fmtS (some (toLog (entry.Data BackendURL) defaultValue))
  elapsed := decimal (Int.tdiv ns 1000000)

/-- How a call of a Go function ends: it panics, or it returns. -/
inductive Outcome (α : Type)
  | panic
  | ret (a : α)
  deriving DecidableEq, Repr

/-- A Go `error` value, by its message. -/
abbrev GoError := Bytes

/-- The method `CommonLogFormatter.Format` of the source. The type assertions
`entry.Data[StartUTC].(time.Time)` and `entry.Data[Duration].(time.Duration)` have no
`ok` result, so each panics on a value of another type or a missing one. The error
returned is that of `fmt.Fprintf` writing to a `bytes.Buffer`, which is always nil
(`none`). An `Entry` holds values whose `String` method returns; `FormatHeld` is the
method on a record that may also hold a value whose `String` method panics. -/
def Format (entry : Entry) : Outcome (Bytes × Option GoError) :=
  match entry.Data StartUTC with
  | some (.time start _) =>
    match entry.Data Duration with
    | some (.duration ns _) => .ret ((operands entry start ns).line, none)
    | _ => .panic
  | _ => .panic

/-! ## Records with values whose `String` method panics

A `Value` stands for a value whose `String` method, if it has one, returns. The map of
a `logrus.Entry` can also hold a value whose `String` method panics when called, such
as the nil pointer `(*time.Time)(nil)`. `fmt` recovers from such a panic and prints a
text in place of the value; `toLog`, which calls the method itself on line 60, does
not. -/

/-- A non-nil value of interface type, as found in `entry.Data`. `sound v` is a value
whose `String` method, if it has one, returns. `faulty sfmt vfmt` is a value with a
`String() string` method whose call panics; `sfmt` and `vfmt` are what `fmt`, which
recovers from that panic, prints for it under `%s` and `%v` (`<nil>` for a nil
pointer, otherwise a text that starts `%!s(PANIC=` or `%!v(PANIC=`). -/
inductive Held
  | sound (v : Value)
  | faulty (sfmt vfmt : Bytes)
  deriving DecidableEq, Repr

/-- A held value as everything but a direct call of its `String` method sees it: a
faulty value is not a string, not a `time.Time` and not a `time.Duration`, and `fmt`
prints the texts it carries. -/
def Held.value : Held → Value
  | .sound v => v
  | .faulty sfmt vfmt => .other sfmt vfmt

/-- Whether the interface holds a value whose `String` method panics. -/
def isFaulty : Option Held → Bool
  | some (.faulty _ _) => true
  | _ => false

/-- A `logrus.Entry` whose `Data` map may also hold faulty values. -/
structure Record where
  Data : String → Option Held

/-- The record as type assertions and `fmt` see it. -/
def Record.entry (r : Record) : Entry :=
  ⟨fun k => (r.Data k).map Held.value⟩

/-- The record with `h` stored under `key`. -/
def Record.set (r : Record) (key : String) (h : Held) : Record :=
  ⟨fun k => if k = key then some h else r.Data k⟩

/-- An entry of sound values as a record. -/
def Entry.record (entry : Entry) : Record :=
  ⟨fun k => (entry.Data k).map Held.sound⟩

/-- The function `toLog` of the source on any held value. The case `fmt.Stringer` on
line 60 calls `s.String()` in `toLog` itself, while the operands of `fmt.Fprintf` are
evaluated, so a panic of that method is a panic of `toLog`; in every other case
`toLog` returns what it returns on a sound value. -/
def toLogHeld (v : Option Held) (defaultValue : Bytes) : Outcome Value :=
  match v with
  | none => .ret (toLog none defaultValue)
  | some (.sound x) => .ret (toLog (some x) defaultValue)
  | some (.faulty _ _) => .panic

/-- The keys of the seven fields that `Format` passes through `toLog`. -/
def toLogKeys : List String :=
  [OriginStatus, OriginContentSize, "request_Referer", "request_User-Agent", RequestCount,
    FrontendName, BackendURL]

/-- The method `CommonLogFormatter.Format` of the source on a record that may hold
faulty values: the two type assertions, then the operands of `fmt.Fprintf` in their order, each
call of `toLog` panicking where the `String` method it calls does, then the line. -/
def FormatHeld (r : Record) : Outcome (Bytes × Option GoError) :=
  match r.Data StartUTC with
  | some (.sound (.time start _)) =>
    match r.Data Duration with
    | some (.sound (.duration ns _)) =>
      match toLogHeld (r.Data OriginStatus) defaultValue with
      | .panic => .panic
      | .ret status =>
        match toLogHeld (r.Data OriginContentSize) defaultValue with
        | .panic => .panic
        | .ret size =>
          match toLogHeld (r.Data "request_Referer") (ofStr "\"-\"") with
          | .panic => .panic
          | .ret referer =>
            match toLogHeld (r.Data "request_User-Agent") (ofStr "\"-\"") with
            | .panic => .panic
            | .ret userAgent =>
              match toLogHeld (r.Data RequestCount) defaultValue with
              | .panic => .panic
              | .ret count =>
                match toLogHeld (r.Data FrontendName) defaultValue with
                | .panic => .panic
                | .ret frontend =>
                  match toLogHeld (r.Data BackendURL) defaultValue with
                  | .panic => .panic
                  | .ret backend =>
                    .ret (Operands.line
                      { clientHost := fmtS (r.entry.Data ClientHost)
                        subject := fmtS (some (.str (extractJWTSubject
                          (r.entry.Data "request_Authorization") (ofStr "-"))))
                        timestamp := fmtS (some (.str start.formatCommonLog))
                        method := fmtS (r.entry.Data RequestMethod)
                        path := fmtS (r.entry.Data RequestPath)
                        protocol := fmtS (r.entry.Data RequestProtocol)
                        status := fmtV (some status)
                        size := fmtV (some size)
                        referer := fmtS (some referer)
                        userAgent := fmtS (some userAgent)
                        count := fmtV (some count)
                        frontend := fmtS (some frontend)
                        backend := fmtS (some backend)
                        elapsed := decimal (Int.tdiv ns 1000000) }, none)
    | _ => .panic
  | _ => .panic

/-! ## Encoders of the specification

The round trip of the specification starts from a token built by an encoder. These
definitions follow the specification's words (base64url without padding, a JSON object
with the one member `sub`); they are not part of the program. -/

/-- The URL-safe base64 alphabet of RFC 4648: `A`-`Z`, `a`-`z`, `0`-`9`, `-`, `_`. -/
def urlEncodeChar (n : Nat) : Nat :=
  if n < 26 then 65 + n
  else if n < 52 then 71 + n
  else if n < 62 then n - 4
  else if n = 62 then 45
  else 95

/-- Specification side: the base64url encoding without padding. Three bytes give four
characters, a final single byte two and a final pair three. -/
def base64URLEncode : Bytes → Bytes
  | [] => []
  | [a] => [urlEncodeChar (a / 4), urlEncodeChar (a % 4 * 16)]
  | [a, b] =>
    [urlEncodeChar (a / 4), urlEncodeChar (a % 4 * 16 + b / 16), urlEncodeChar (b % 16 * 4)]
  | a :: b :: c :: rest =>
    urlEncodeChar (a / 4) :: urlEncodeChar (a % 4 * 16 + b / 16)
      :: urlEncodeChar (b % 16 * 4 + c / 64) :: urlEncodeChar (c % 64) :: base64URLEncode rest

/-- A lower-case hexadecimal digit. -/
def hexDigit (n : Nat) : Nat := if n < 10 then 48 + n else 87 + n

/-- Specification side: the escaping of a JSON string. The double quote and the
backslash get a backslash, a control character becomes `\u00XX`, every other byte
stands for itself. -/
def jsonEscape : Bytes → Bytes
  | [] => []
  | b :: bs =>
    (if b = 34 then [92, 34]
     else if b = 92 then [92, 92]
     else if b < 32 then [92, 117, 48, 48, hexDigit (b / 16), hexDigit (b % 16)]
     else [b]) ++ jsonEscape bs

/-- Specification side: the compact JSON text of the object `{"sub": s}`. -/
def subjectJSON (s : Bytes) : Bytes :=
  ofStr "\x7b\"sub\":\"" ++ jsonEscape s ++ ofStr "\"\x7d"

/-! ## Example records -/

/-- The record of the end-to-end example: no `Authorization` header, referer,
user agent or request count. -/
def exampleEntry : Entry :=
  ⟨fun k =>
    if k = ClientHost then some (.str (ofStr "10.0.0.1"))
    else if k = StartUTC then
      some (.time ⟨2024, 6, 10, 13, 45, 2, 0⟩ (ofStr "2024-06-10 13:45:02 +0000 UTC"))
    else if k = Duration then some (.duration 250000000 (ofStr "250ms"))
    else if k = RequestMethod then some (.str (ofStr "GET"))
    else if k = RequestPath then some (.str (ofStr "/health"))
    else if k = RequestProtocol then some (.str (ofStr "HTTP/1.1"))
    else if k = OriginStatus then some (.int .int 200)
    else if k = OriginContentSize then some (.int .int64 12)
    else if k = FrontendName then some (.str (ofStr "web"))
    else if k = BackendURL then some (.str (ofStr "http://10.0.0.2:80"))
    else none⟩

/-- A record with every field present: the example record with a referer, a user
agent, a request count and an `Authorization` header whose token payload is
`{"sub":"alice"}`. -/
def fullEntry : Entry :=
  ⟨fun k =>
    if k = "request_Authorization" then some (.str (ofStr "JWT h.eyJzdWIiOiJhbGljZSJ9.s"))
    else if k = "request_Referer" then some (.str (ofStr "http://example.com/"))
    else if k = "request_User-Agent" then some (.str (ofStr "curl/7.58.0"))
    else if k = RequestCount then some (.int .uint64 7)
    else exampleEntry.Data k⟩

/-- The example record as a `Record`. -/
def exampleRecord : Record := exampleEntry.record

/-- The nil pointer `(*time.Time)(nil)`: its `String` method panics when called, and
`fmt`, which recovers from that panic, prints `<nil>` for it under `%s` and `%v`. -/
def nilTimePointer : Held := .faulty (ofStr "<nil>") (ofStr "<nil>")

/-- A record that holds nothing but a start time and a duration. -/
def bareRecord : Record :=
  ⟨fun k =>
    if k = StartUTC then
      some (.sound (.time ⟨2024, 6, 10, 13, 45, 2, 0⟩ (ofStr "2024-06-10 13:45:02 +0000 UTC")))
    else if k = Duration then some (.sound (.duration (-1999999) (ofStr "-1.999999ms")))
    else none⟩

/-! ## Lemmas on the header pattern and the padding -/

theorem ofStr_jwt : ofStr "JWT " = [74, 87, 84, 32] := by decide

theorem ofStr_dot : ofStr "." = [46] := by decide

theorem ofStr_quote : ofStr "\"" = [34] := by decide

theorem ofStr_dash : ofStr "-" = [45] := by decide

theorem ofStr_qdash : ofStr "\"-\"" = [34, 45, 34] := by decide

theorem ofStr_eq1 : ofStr "=" = [61] := by decide

theorem ofStr_eq2 : ofStr "==" = [61, 61] := by decide

/-- A header without the prefix `JWT ` is not matched. -/
theorem authorizationRegexp_other_scheme (s : Bytes) (h : ¬ (ofStr "JWT " <+: s)) :
    authorizationRegexp s = [] := by
  unfold authorizationRegexp
  rw [if_neg]
  rw [List.isPrefixOf_iff_prefix]
  exact h

/-- The pattern on a header of three segments without full stops: it matches exactly
when the three segments are non-empty, and the group is then the middle one. -/
theorem authorizationRegexp_segments (h p g : Bytes)
    (hh : ∀ x ∈ h, notDot x = true) (hp : ∀ x ∈ p, notDot x = true)
    (hg : ∀ x ∈ g, notDot x = true) :
    authorizationRegexp (ofStr "JWT " ++ h ++ ofStr "." ++ p ++ ofStr "." ++ g)
      = if h ≠ [] ∧ p ≠ [] ∧ g ≠ [] then
          [ofStr "JWT " ++ h ++ ofStr "." ++ p ++ ofStr "." ++ g, p]
        else [] := by
  have hpre : (ofStr "JWT ").isPrefixOf
      (ofStr "JWT " ++ h ++ ofStr "." ++ p ++ ofStr "." ++ g) = true := by
    rw [List.isPrefixOf_iff_prefix]
    simp only [List.append_assoc]
    exact List.prefix_append _ _
  have hdrop : (ofStr "JWT " ++ h ++ ofStr "." ++ p ++ ofStr "." ++ g).drop 4
      = h ++ 46 :: (p ++ 46 :: g) := by
    simp [ofStr_jwt, ofStr_dot]
  have hd1 : (h ++ 46 :: (p ++ 46 :: g)).dropWhile notDot = 46 :: (p ++ 46 :: g) := by
    rw [List.dropWhile_append_of_pos hh]
    simp [notDot]
  have ht1 : (h ++ 46 :: (p ++ 46 :: g)).takeWhile notDot = h := by
    rw [List.takeWhile_append_of_pos hh]
    simp [notDot]
  have hd2 : (p ++ 46 :: g).dropWhile notDot = 46 :: g := by
    rw [List.dropWhile_append_of_pos hp]
    simp [notDot]
  have ht2 : (p ++ 46 :: g).takeWhile notDot = p := by
    rw [List.takeWhile_append_of_pos hp]
    simp [notDot]
  have hall : g.all notDot = true := by
    rw [List.all_eq_true]
    exact hg
  unfold authorizationRegexp
  rw [if_pos hpre, hdrop, hd1]
  simp only [hd2, ht1, ht2, hall, and_true]

theorem addBase64Padding_rem1 (p : Bytes) (h : p.length % 4 = 1) :
    addBase64Padding p = [] := by
  unfold addBase64Padding
  simp [h]

/-- No subject is parsed when the capture group has a length of remainder 1. -/
theorem parseJWTSubject_group_rem1 (s : Bytes)
    (h : ((authorizationRegexp s).getD 1 []).length % 4 = 1) : parseJWTSubject s = [] := by
  unfold parseJWTSubject
  simp only [addBase64Padding_rem1 _ h, List.length_nil, if_true, ite_self]

theorem extractJWTSubject_of_parse_nil (s d : Bytes) (h : parseJWTSubject s = []) :
    extractJWTSubject (some (.str s)) d = d := by
  simp [extractJWTSubject, h]

/-! ## Lemmas on `Format` -/

/-- With a start time and a duration in place, `Format` returns the line of its
operands and a nil error. -/
theorem Format_ret (entry : Entry) (start : Time) (stext : Bytes) (ns : Int) (dtext : Bytes)
    (hs : entry.Data StartUTC = some (.time start stext))
    (hd : entry.Data Duration = some (.duration ns dtext)) :
    Format entry = .ret ((operands entry start ns).line, none) := by
  simp [Format, hs, hd]

/-- Every line ends with a space, the elapsed operand, `ms` and a newline. -/
theorem Operands.line_ending (o : Operands) :
    o.line = o.front ++ ofStr " " ++ o.elapsed ++ ofStr "ms\n" := by
  simp [Operands.line, Operands.front, List.append_assoc]

/-- Without a `time.Time` under `StartUTC` and a `time.Duration` under `Duration`,
`Format` panics. -/
theorem Format_panic (entry : Entry)
    (h : ¬ ((∃ (t : Time) (text : Bytes), entry.Data StartUTC = some (.time t text))
      ∧ ∃ (ns : Int) (text : Bytes), entry.Data Duration = some (.duration ns text))) :
    Format entry = .panic := by
  unfold Format
  cases h1 : entry.Data StartUTC with
  | none => rfl
  | some v =>
    cases v with
    | time t text =>
      cases h2 : entry.Data Duration with
      | none => rfl
      | some w =>
        cases w with
        | duration n text2 => exact absurd ⟨⟨t, text, h1⟩, ⟨n, text2, h2⟩⟩ h
        | _ => rfl
    | _ => rfl

/-- On a value that is not faulty, `toLogHeld` returns what `toLog` returns. -/
theorem toLogHeld_ret (v : Option Held) (d : Bytes) (h : isFaulty v = false) :
    toLogHeld v d = .ret (toLog (v.map Held.value) d) := by
  cases v with
  | none => rfl
  | some x =>
    cases x with
    | sound y => rfl
    | faulty s t => simp [isFaulty] at h

/-- On a faulty value, `toLogHeld` panics. -/
theorem toLogHeld_panic (v : Option Held) (d : Bytes) (h : isFaulty v = true) :
    toLogHeld v d = .panic := by
  cases v with
  | none => simp [isFaulty] at h
  | some x =>
    cases x with
    | sound y => simp [isFaulty] at h
    | faulty s t => rfl

/-- With a start time and a duration in place and no faulty value under a key of
`toLog`, `FormatHeld` returns the line of the operands and a nil error. -/
theorem FormatHeld_ret (r : Record) (start : Time) (stext : Bytes) (ns : Int) (dtext : Bytes)
    (hs : r.Data StartUTC = some (.sound (.time start stext)))
    (hd : r.Data Duration = some (.sound (.duration ns dtext)))
    (hk : ∀ k ∈ toLogKeys, isFaulty (r.Data k) = false) :
    FormatHeld r = .ret ((operands r.entry start ns).line, none) := by
  have h1 := hk OriginStatus (by simp [toLogKeys])
  have h2 := hk OriginContentSize (by simp [toLogKeys])
  have h3 := hk "request_Referer" (by simp [toLogKeys])
  have h4 := hk "request_User-Agent" (by simp [toLogKeys])
  have h5 := hk RequestCount (by simp [toLogKeys])
  have h6 := hk FrontendName (by simp [toLogKeys])
  have h7 := hk BackendURL (by simp [toLogKeys])
  unfold FormatHeld
  rw [hs, hd]
  simp only [toLogHeld_ret _ _ h1, toLogHeld_ret _ _ h2, toLogHeld_ret _ _ h3,
    toLogHeld_ret _ _ h4, toLogHeld_ret _ _ h5, toLogHeld_ret _ _ h6, toLogHeld_ret _ _ h7]
  rfl

/-- A faulty value under a key of `toLog` makes `FormatHeld` panic. -/
theorem FormatHeld_panic (r : Record) (k : String) (hm : k ∈ toLogKeys)
    (hf : isFaulty (r.Data k) = true) : FormatHeld r = .panic := by
  unfold FormatHeld
  simp only [toLogKeys, List.mem_cons, List.mem_singleton, List.not_mem_nil, or_false] at hm
  repeat' split
  all_goals first
    | rfl
    | (exfalso
       rcases hm with hm | hm | hm | hm | hm | hm | hm <;> subst hm <;>
         simp_all [toLogHeld_panic])

/-- On an entry of sound values, `FormatHeld` is `Format`. -/
theorem FormatHeld_record (entry : Entry) : FormatHeld entry.record = Format entry := by
  have he : entry.record.entry = entry := by
    cases entry with
    | mk d =>
      simp only [Entry.record, Record.entry, Option.map_map]
      congr
      funext k
      cases d k <;> rfl
  have hk : ∀ k ∈ toLogKeys, isFaulty (entry.record.Data k) = false := by
    intro k _
    simp only [Entry.record]
    cases entry.Data k <;> rfl
  by_cases h : (∃ (t : Time) (text : Bytes), entry.Data StartUTC = some (.time t text))
      ∧ ∃ (ns : Int) (text : Bytes), entry.Data Duration = some (.duration ns text)
  · obtain ⟨⟨t, st, h1⟩, ⟨n, dt, h2⟩⟩ := h
    rw [FormatHeld_ret entry.record t st n dt (by simp [Entry.record, h1])
      (by simp [Entry.record, h2]) hk, he, Format_ret entry t st n dt h1 h2]
  · rw [Format_panic entry h]
    unfold FormatHeld
    simp only [Entry.record]
    cases h1 : entry.Data StartUTC with
    | none => rfl
    | some v =>
      cases v with
      | time t text =>
        cases h2 : entry.Data Duration with
        | none => rfl
        | some w =>
          cases w with
          | duration n text2 => exact absurd ⟨⟨t, text, h1⟩, ⟨n, text2, h2⟩⟩ h
          | _ => rfl
      | _ => rfl

/-- The digits of `natDigits` are decimal digits and stand for the number. -/
theorem natDigits_value : ∀ (fuel n : Nat), n < fuel →
    digitsValue (natDigits fuel n) = n ∧ ∀ d ∈ natDigits fuel n, 48 ≤ d ∧ d ≤ 57 := by
  intro fuel
  induction fuel with
  | zero => intro n h; omega
  | succ f ih =>
    intro n h
    unfold natDigits
    by_cases h10 : n < 10
    · rw [if_pos h10]
      refine ⟨by simp [digitsValue], ?_⟩
      intro d hd
      simp only [List.mem_singleton] at hd
      omega
    · rw [if_neg h10]
      obtain ⟨hv, hd⟩ := ih (n / 10) (by omega)
      refine ⟨?_, ?_⟩
      · unfold digitsValue at hv ⊢
        rw [List.foldl_append, hv]
        simp only [List.foldl_cons, List.foldl_nil]
        omega
      · intro d hmem
        rcases List.mem_append.mp hmem with h1 | h1
        · exact hd d h1
        · simp only [List.mem_singleton] at h1
          omega

theorem decimalNat_value (n : Nat) :
    digitsValue (decimalNat n) = n ∧ ∀ d ∈ decimalNat n, 48 ≤ d ∧ d ≤ 57 :=
  natDigits_value (n + 1) n (by omega)

theorem ofStr_ms_newline : ofStr "ms\n" = [109, 115, 10] := by decide

theorem remove_data_ne (entry : Entry) (key k : String) (h : k ≠ key) :
    (entry.remove key).Data k = entry.Data k := by
  simp [Entry.remove, h]

theorem remove_data_self (entry : Entry) (key : String) :
    (entry.remove key).Data key = none := by
  simp [Entry.remove]

/-! ## Lemmas on UTF-8 and on JSON strings -/

theorem decodeRune_two (b b1 : Nat) (rest : Bytes) (h1 : 0xC2 ≤ b) (h2 : b < 0xE0)
    (h3 : 0x80 ≤ b1) (h4 : b1 ≤ 0xBF) :
    decodeRune (b :: b1 :: rest) = (b % 32 * 64 + b1 % 64, 2) := by
  simp only [decodeRune]
  split_ifs <;> first | omega | rfl

theorem decodeRune_three (b b1 b2 : Nat) (rest : Bytes) (h1 : 0xE0 ≤ b) (h2 : b < 0xF0)
    (h3 : 0x80 ≤ b1) (h4 : b1 ≤ 0xBF) (h5 : b = 0xE0 → 0xA0 ≤ b1) (h6 : b = 0xED → b1 ≤ 0x9F)
    (h7 : 0x80 ≤ b2) (h8 : b2 ≤ 0xBF) :
    decodeRune (b :: b1 :: b2 :: rest) = (b % 16 * 4096 + b1 % 64 * 64 + b2 % 64, 3) := by
  simp only [decodeRune]
  split_ifs <;> first | omega | rfl

theorem decodeRune_four (b b1 b2 b3 : Nat) (rest : Bytes) (h1 : 0xF0 ≤ b) (h2 : b ≤ 0xF4)
    (h3 : 0x80 ≤ b1) (h4 : b1 ≤ 0xBF) (h5 : b = 0xF0 → 0x90 ≤ b1) (h6 : b = 0xF4 → b1 ≤ 0x8F)
    (h7 : 0x80 ≤ b2) (h8 : b2 ≤ 0xBF) (h9 : 0x80 ≤ b3) (h10 : b3 ≤ 0xBF) :
    decodeRune (b :: b1 :: b2 :: b3 :: rest)
      = (b % 8 * 262144 + b1 % 64 * 4096 + b2 % 64 * 64 + b3 % 64, 4) := by
  have c1 : ¬ b < 0x80 := by omega
  have c2 : ¬ (b < 0xC2 ∨ 0xF4 < b) := by omega
  have c3 : ¬ b < 0xE0 := by omega
  have c4 : ¬ b < 0xF0 := by omega
  have hlo : ¬ (b1 < (if b = 0xE0 then 0xA0 else if b = 0xF0 then 0x90 else 0x80)
      ∨ (if b = 0xED then 0x9F else if b = 0xF4 then 0x8F else 0xBF) < b1) := by
    split_ifs <;> omega
  have c5 : ¬ (b2 < 0x80 ∨ 0xBF < b2) := by omega
  have c6 : ¬ (b3 < 0x80 ∨ 0xBF < b3) := by omega
  simp only [decodeRune, c1, c2, c3, c4, hlo, c5, c6, if_false]
theorem encodeRune_two (b b1 : Nat) (h1 : 0xC2 ≤ b) (h2 : b < 0xE0)
    (h3 : 0x80 ≤ b1) (h4 : b1 ≤ 0xBF) : encodeRune (b % 32 * 64 + b1 % 64) = [b, b1] := by
  unfold encodeRune
  rw [if_neg (by omega), if_pos (by omega)]
  have e1 : 0xC0 + (b % 32 * 64 + b1 % 64) / 64 = b := by omega
  have e2 : 0x80 + (b % 32 * 64 + b1 % 64) % 64 = b1 := by omega
  rw [e1, e2]

theorem encodeRune_three (b b1 b2 : Nat) (h1 : 0xE0 ≤ b) (h2 : b < 0xF0)
    (h3 : 0x80 ≤ b1) (h4 : b1 ≤ 0xBF) (h5 : b = 0xE0 → 0xA0 ≤ b1) (h6 : b = 0xED → b1 ≤ 0x9F)
    (h7 : 0x80 ≤ b2) (h8 : b2 ≤ 0xBF) :
    encodeRune (b % 16 * 4096 + b1 % 64 * 64 + b2 % 64) = [b, b1, b2] := by
  have c1 : ¬ b % 16 * 4096 + b1 % 64 * 64 + b2 % 64 ≤ 0x7F := by omega
  have c2 : ¬ b % 16 * 4096 + b1 % 64 * 64 + b2 % 64 ≤ 0x7FF := by omega
  have c3 : ¬ (0x10FFFF < b % 16 * 4096 + b1 % 64 * 64 + b2 % 64
      ∨ (0xD800 ≤ b % 16 * 4096 + b1 % 64 * 64 + b2 % 64
        ∧ b % 16 * 4096 + b1 % 64 * 64 + b2 % 64 ≤ 0xDFFF)) := by omega
  have c4 : b % 16 * 4096 + b1 % 64 * 64 + b2 % 64 ≤ 0xFFFF := by omega
  unfold encodeRune
  rw [if_neg c1, if_neg c2, if_neg c3, if_pos c4]
  have e1 : 0xE0 + (b % 16 * 4096 + b1 % 64 * 64 + b2 % 64) / 4096 = b := by omega
  have e2 : 0x80 + (b % 16 * 4096 + b1 % 64 * 64 + b2 % 64) / 64 % 64 = b1 := by omega
  have e3 : 0x80 + (b % 16 * 4096 + b1 % 64 * 64 + b2 % 64) % 64 = b2 := by omega
  rw [e1, e2, e3]

theorem encodeRune_four (b b1 b2 b3 : Nat) (h1 : 0xF0 ≤ b) (h2 : b ≤ 0xF4)
    (h3 : 0x80 ≤ b1) (h4 : b1 ≤ 0xBF) (h5 : b = 0xF0 → 0x90 ≤ b1) (h6 : b = 0xF4 → b1 ≤ 0x8F)
    (h7 : 0x80 ≤ b2) (h8 : b2 ≤ 0xBF) (h9 : 0x80 ≤ b3) (h10 : b3 ≤ 0xBF) :
    encodeRune (b % 8 * 262144 + b1 % 64 * 4096 + b2 % 64 * 64 + b3 % 64)
      = [b, b1, b2, b3] := by
  have c1 : ¬ b % 8 * 262144 + b1 % 64 * 4096 + b2 % 64 * 64 + b3 % 64 ≤ 0x7F := by omega
  have c2 : ¬ b % 8 * 262144 + b1 % 64 * 4096 + b2 % 64 * 64 + b3 % 64 ≤ 0x7FF := by omega
  have c3 : ¬ (0x10FFFF < b % 8 * 262144 + b1 % 64 * 4096 + b2 % 64 * 64 + b3 % 64
      ∨ (0xD800 ≤ b % 8 * 262144 + b1 % 64 * 4096 + b2 % 64 * 64 + b3 % 64
        ∧ b % 8 * 262144 + b1 % 64 * 4096 + b2 % 64 * 64 + b3 % 64 ≤ 0xDFFF)) := by omega
  have c4 : ¬ b % 8 * 262144 + b1 % 64 * 4096 + b2 % 64 * 64 + b3 % 64 ≤ 0xFFFF := by omega
  unfold encodeRune
  rw [if_neg c1, if_neg c2, if_neg c3, if_neg c4]
  have e1 : 0xF0 + (b % 8 * 262144 + b1 % 64 * 4096 + b2 % 64 * 64 + b3 % 64) / 262144 = b := by
    omega
  have e2 : 0x80 + (b % 8 * 262144 + b1 % 64 * 4096 + b2 % 64 * 64 + b3 % 64) / 4096 % 64
      = b1 := by omega
  have e3 : 0x80 + (b % 8 * 262144 + b1 % 64 * 4096 + b2 % 64 * 64 + b3 % 64) / 64 % 64
      = b2 := by omega
  have e4 : 0x80 + (b % 8 * 262144 + b1 % 64 * 4096 + b2 % 64 * 64 + b3 % 64) % 64 = b3 := by
    omega
  rw [e1, e2, e3, e4]

/-- The outcomes of `decodeRune` on a lead byte from 0x80: an error of width 1, or a
well-formed sequence of two, three or four bytes. -/
theorem decodeRune_cases (b : Nat) (bs : Bytes) (hb : 128 ≤ b) :
    decodeRune (b :: bs) = (runeError, 1)
    ∨ (∃ b1 rest, bs = b1 :: rest ∧ 0xC2 ≤ b ∧ b < 0xE0 ∧ 0x80 ≤ b1 ∧ b1 ≤ 0xBF)
    ∨ (∃ b1 b2 rest, bs = b1 :: b2 :: rest ∧ 0xE0 ≤ b ∧ b < 0xF0 ∧ 0x80 ≤ b1 ∧ b1 ≤ 0xBF
        ∧ (b = 0xE0 → 0xA0 ≤ b1) ∧ (b = 0xED → b1 ≤ 0x9F) ∧ 0x80 ≤ b2 ∧ b2 ≤ 0xBF)
    ∨ (∃ b1 b2 b3 rest, bs = b1 :: b2 :: b3 :: rest ∧ 0xF0 ≤ b ∧ b ≤ 0xF4 ∧ 0x80 ≤ b1
        ∧ b1 ≤ 0xBF ∧ (b = 0xF0 → 0x90 ≤ b1) ∧ (b = 0xF4 → b1 ≤ 0x8F) ∧ 0x80 ≤ b2 ∧ b2 ≤ 0xBF
        ∧ 0x80 ≤ b3 ∧ b3 ≤ 0xBF) := by
  by_cases hr : b < 0xC2 ∨ 0xF4 < b
  · left
    simp only [decodeRune]
    rw [if_neg (by omega), if_pos hr]
  by_cases h2 : b < 0xE0
  · rcases bs with _ | ⟨b1, rest⟩
    · left
      simp only [decodeRune]
      rw [if_neg (by omega), if_neg hr]
    · by_cases hc : 0x80 ≤ b1 ∧ b1 ≤ 0xBF
      · right; left
        exact ⟨b1, rest, rfl, by omega, h2, hc.1, hc.2⟩
      · left
        simp only [decodeRune]
        split_ifs <;> first | omega | rfl
  by_cases h3 : b < 0xF0
  · rcases bs with _ | ⟨b1, _ | ⟨b2, rest⟩⟩
    · left
      simp only [decodeRune]
      rw [if_neg (by omega), if_neg hr]
    · left
      simp only [decodeRune]
      rw [if_neg (by omega), if_neg hr, if_neg h2]
    · by_cases hc : 0x80 ≤ b1 ∧ b1 ≤ 0xBF ∧ (b = 0xE0 → 0xA0 ≤ b1) ∧ (b = 0xED → b1 ≤ 0x9F)
          ∧ 0x80 ≤ b2 ∧ b2 ≤ 0xBF
      · right; right; left
        exact ⟨b1, b2, rest, rfl, by omega, h3, hc.1, hc.2.1, hc.2.2.1, hc.2.2.2.1,
          hc.2.2.2.2.1, hc.2.2.2.2.2⟩
      · left
        simp only [decodeRune]
        split_ifs <;> first | omega | rfl
  · rcases bs with _ | ⟨b1, _ | ⟨b2, _ | ⟨b3, rest⟩⟩⟩
    · left
      simp only [decodeRune]
      rw [if_neg (by omega), if_neg hr]
    · left
      simp only [decodeRune]
      rw [if_neg (by omega), if_neg hr, if_neg h2]
    · left
      simp only [decodeRune]
      rw [if_neg (by omega), if_neg hr, if_neg h2, if_neg h3]
    · by_cases hc : 0x80 ≤ b1 ∧ b1 ≤ 0xBF ∧ (b = 0xF0 → 0x90 ≤ b1) ∧ (b = 0xF4 → b1 ≤ 0x8F)
          ∧ 0x80 ≤ b2 ∧ b2 ≤ 0xBF ∧ 0x80 ≤ b3 ∧ b3 ≤ 0xBF
      · right; right; right
        exact ⟨b1, b2, b3, rest, rfl, by omega, by omega, hc.1, hc.2.1, hc.2.2.1, hc.2.2.2.1,
          hc.2.2.2.2.1, hc.2.2.2.2.2.1, hc.2.2.2.2.2.2.1, hc.2.2.2.2.2.2.2⟩
      · left
        simp only [decodeRune]
        split_ifs <;> first | omega | rfl

theorem hexVal_hexDigit : ∀ n, n < 16 → hexVal (hexDigit n) = some n := by decide

theorem encodeRune_ascii (b : Nat) (h : b < 128) : encodeRune b = [b] := by
  unfold encodeRune
  rw [if_pos (by omega)]

theorem decodeRune_ascii (b : Nat) (bs : Bytes) (h : b < 128) : decodeRune (b :: bs) = (b, 1) := by
  simp only [decodeRune]
  rw [if_pos h]

/-- A byte from 0x80 is not escaped. -/
theorem jsonEscape_high (b : Nat) (bs : Bytes) (h : 128 ≤ b) :
    jsonEscape (b :: bs) = b :: jsonEscape bs := by
  have c1 : ¬ b = 34 := by omega
  have c2 : ¬ b = 92 := by omega
  have c3 : ¬ b < 32 := by omega
  simp only [jsonEscape, c1, c2, c3, if_false, List.singleton_append]

/-- The step of `parseString` on a byte from 0x80: one code point is decoded and
encoded again. -/
theorem parseString_high (f c : Nat) (r : Bytes) (h : 128 ≤ c) :
    parseString (f + 1) (c :: r)
      = (parseString f ((c :: r).drop (decodeRune (c :: r)).2)).map
          (fun o => (encodeRune (decodeRune (c :: r)).1 ++ o.1, o.2)) := by
  have c1 : ¬ c = 34 := by omega
  have c2 : ¬ c = 92 := by omega
  have c3 : ¬ c < 32 := by omega
  have c4 : ¬ c < 128 := by omega
  simp only [parseString, c1, c2, c3, c4, if_false]

theorem parseString_escape : ∀ (k : Nat) (s : Bytes), validUTF8Aux k s = true →
    ∀ (fuel : Nat) (rest : Bytes), (jsonEscape s).length < fuel →
      parseString fuel (jsonEscape s ++ 34 :: rest) = some (s, rest) := by
  intro k
  induction k with
  | zero =>
    intro s hv fuel rest hf
    cases s with
    | nil =>
      obtain ⟨f, rfl⟩ : ∃ f, fuel = f + 1 := ⟨fuel - 1, by omega⟩
      simp [jsonEscape, parseString]
    | cons b bs => simp [validUTF8Aux] at hv
  | succ k ih =>
    intro s hv fuel rest hf
    cases s with
    | nil =>
      obtain ⟨f, rfl⟩ : ∃ f, fuel = f + 1 := ⟨fuel - 1, by omega⟩
      simp [jsonEscape, parseString]
    | cons b bs =>
      obtain ⟨f, rfl⟩ : ∃ f, fuel = f + 1 := ⟨fuel - 1, by omega⟩
      by_cases hb : b < 128
      · have hv' : validUTF8Aux k bs = true := by
          simp only [validUTF8Aux, decodeRune_ascii b bs hb] at hv
          rw [if_neg (by simp [runeError]; omega)] at hv
          simpa using hv
        by_cases h34 : b = 34
        · subst h34
          have hl : (jsonEscape bs).length < f := by
            simp [jsonEscape] at hf
            omega
          have := ih bs hv' f rest hl
          simp [jsonEscape, parseString, unescape, this]
        by_cases h92 : b = 92
        · subst h92
          have hl : (jsonEscape bs).length < f := by
            simp [jsonEscape] at hf
            omega
          have := ih bs hv' f rest hl
          simp [jsonEscape, parseString, unescape, this]
        by_cases h32 : b < 32
        · have hl : (jsonEscape bs).length < f := by
            simp [jsonEscape, h34, h92, h32] at hf
            omega
          have := ih bs hv' f rest hl
          have e1 := hexVal_hexDigit (b / 16) (by omega)
          have e2 := hexVal_hexDigit (b % 16) (by omega)
          have e0 : hexVal 48 = some 0 := by decide
          have e3 : b / 16 * 16 + b % 16 = b := by omega
          simp [jsonEscape, h34, h92, h32, parseString, getu4, e0, e1, e2, e3, this,
            encodeRune_ascii b hb]
          omega
        · have hl : (jsonEscape bs).length < f := by
            simp [jsonEscape, h34, h92, h32] at hf
            omega
          have := ih bs hv' f rest hl
          simp [jsonEscape, h34, h92, h32, parseString, hb, this]
      · have hb' : 128 ≤ b := by omega
        rcases decodeRune_cases b bs hb' with he | ⟨b1, tl, rfl, h1, h2, h3, h4⟩
            | ⟨b1, b2, tl, rfl, h1, h2, h3, h4, h5, h6, h7, h8⟩
            | ⟨b1, b2, b3, tl, rfl, h1, h2, h3, h4, h5, h6, h7, h8, h9, h10⟩
        · simp [validUTF8Aux, he] at hv
        · have hv' : validUTF8Aux k tl = true := by
            simp only [validUTF8Aux, decodeRune_two b b1 tl h1 h2 h3 h4] at hv
            simpa using hv
          have hesc : jsonEscape (b :: b1 :: tl) = b :: b1 :: jsonEscape tl := by
            rw [jsonEscape_high b _ hb', jsonEscape_high b1 _ h3]
          rw [hesc] at hf ⊢
          have hl : (jsonEscape tl).length < f := by
            simp only [List.length_cons] at hf
            omega
          have := ih tl hv' f rest hl
          simp only [List.cons_append]
          rw [parseString_high f b _ hb']
          rw [decodeRune_two b b1 _ h1 h2 h3 h4]
          simp only [List.drop_succ_cons, List.drop_zero, this, Option.map_some',
            encodeRune_two b b1 h1 h2 h3 h4, List.cons_append, List.nil_append]
        · have hv' : validUTF8Aux k tl = true := by
            simp only [validUTF8Aux, decodeRune_three b b1 b2 tl h1 h2 h3 h4 h5 h6 h7 h8] at hv
            simpa using hv
          have hesc : jsonEscape (b :: b1 :: b2 :: tl) = b :: b1 :: b2 :: jsonEscape tl := by
            rw [jsonEscape_high b _ hb', jsonEscape_high b1 _ h3, jsonEscape_high b2 _ h7]
          rw [hesc] at hf ⊢
          have hl : (jsonEscape tl).length < f := by
            simp only [List.length_cons] at hf
            omega
          have := ih tl hv' f rest hl
          simp only [List.cons_append]
          rw [parseString_high f b _ hb']
          rw [decodeRune_three b b1 b2 _ h1 h2 h3 h4 h5 h6 h7 h8]
          simp only [List.drop_succ_cons, List.drop_zero, this, Option.map_some',
            encodeRune_three b b1 b2 h1 h2 h3 h4 h5 h6 h7 h8, List.cons_append, List.nil_append]
        · have hv' : validUTF8Aux k tl = true := by
            simp only [validUTF8Aux,
              decodeRune_four b b1 b2 b3 tl h1 h2 h3 h4 h5 h6 h7 h8 h9 h10] at hv
            simpa using hv
          have hesc : jsonEscape (b :: b1 :: b2 :: b3 :: tl)
              = b :: b1 :: b2 :: b3 :: jsonEscape tl := by
            rw [jsonEscape_high b _ hb', jsonEscape_high b1 _ h3, jsonEscape_high b2 _ h7,
              jsonEscape_high b3 _ h9]
          rw [hesc] at hf ⊢
          have hl : (jsonEscape tl).length < f := by
            simp only [List.length_cons] at hf
            omega
          have := ih tl hv' f rest hl
          simp only [List.cons_append]
          rw [parseString_high f b _ hb']
          rw [decodeRune_four b b1 b2 b3 _ h1 h2 h3 h4 h5 h6 h7 h8 h9 h10]
          simp only [List.drop_succ_cons, List.drop_zero, this, Option.map_some',
            encodeRune_four b b1 b2 b3 h1 h2 h3 h4 h5 h6 h7 h8 h9 h10, List.cons_append,
            List.nil_append]

theorem validUTF8Aux_isBytes : ∀ (k : Nat) (s : Bytes), validUTF8Aux k s = true → IsBytes s := by
  intro k
  induction k with
  | zero =>
    intro s hv
    cases s with
    | nil => intro x hx; cases hx
    | cons b bs => simp [validUTF8Aux] at hv
  | succ k ih =>
    intro s hv
    cases s with
    | nil => intro x hx; cases hx
    | cons b bs =>
      by_cases hb : b < 128
      · have hv' : validUTF8Aux k bs = true := by
          simp only [validUTF8Aux, decodeRune_ascii b bs hb] at hv
          rw [if_neg (by simp [runeError]; omega)] at hv
          simpa using hv
        intro x hx
        rcases List.mem_cons.mp hx with h | h
        · omega
        · exact ih bs hv' x h
      · have hb' : 128 ≤ b := by omega
        rcases decodeRune_cases b bs hb' with he | ⟨b1, tl, rfl, h1, h2, h3, h4⟩
            | ⟨b1, b2, tl, rfl, h1, h2, h3, h4, h5, h6, h7, h8⟩
            | ⟨b1, b2, b3, tl, rfl, h1, h2, h3, h4, h5, h6, h7, h8, h9, h10⟩
        · simp [validUTF8Aux, he] at hv
        · have hv' : validUTF8Aux k tl = true := by
            simp only [validUTF8Aux, decodeRune_two b b1 tl h1 h2 h3 h4] at hv
            simpa using hv
          intro x hx
          simp only [List.mem_cons] at hx
          rcases hx with h | h | h
          · omega
          · omega
          · exact ih tl hv' x h
        · have hv' : validUTF8Aux k tl = true := by
            simp only [validUTF8Aux, decodeRune_three b b1 b2 tl h1 h2 h3 h4 h5 h6 h7 h8] at hv
            simpa using hv
          intro x hx
          simp only [List.mem_cons] at hx
          rcases hx with h | h | h | h
          · omega
          · omega
          · omega
          · exact ih tl hv' x h
        · have hv' : validUTF8Aux k tl = true := by
            simp only [validUTF8Aux,
              decodeRune_four b b1 b2 b3 tl h1 h2 h3 h4 h5 h6 h7 h8 h9 h10] at hv
            simpa using hv
          intro x hx
          simp only [List.mem_cons] at hx
          rcases hx with h | h | h | h | h
          · omega
          · omega
          · omega
          · omega
          · exact ih tl hv' x h

theorem hexDigit_lt (n : Nat) (h : n < 16) : hexDigit n < 256 := by
  unfold hexDigit
  split_ifs <;> omega

theorem jsonEscape_isBytes : ∀ s : Bytes, IsBytes s → IsBytes (jsonEscape s)
  | [], _ => by intro x hx; simp [jsonEscape] at hx
  | b :: bs, h => by
    have hb : b < 256 := h b (by simp)
    have ih := jsonEscape_isBytes bs (fun x hx => h x (by simp [hx]))
    have h1 := hexDigit_lt (b / 16) (by omega)
    have h2 := hexDigit_lt (b % 16) (by omega)
    intro x hx
    simp only [jsonEscape, List.mem_append] at hx
    rcases hx with hx | hx
    · split_ifs at hx <;> simp only [List.mem_cons, List.mem_singleton, List.not_mem_nil,
        or_false] at hx <;> omega
    · exact ih x hx

theorem subjectJSON_isBytes (s : Bytes) (h : IsBytes s) : IsBytes (subjectJSON s) := by
  intro x hx
  simp only [subjectJSON, List.mem_append] at hx
  rcases hx with (hx | hx) | hx
  · revert x
    decide
  · exact jsonEscape_isBytes s h x hx
  · revert x
    decide

theorem ofStr_sub_open : ofStr "\x7b\"sub\":\"" = [123, 34, 115, 117, 98, 34, 58, 34] := by decide

theorem ofStr_sub_close : ofStr "\"\x7d" = [34, 125] := by decide

/-- Unmarshalling the JSON text of `{"sub": s}` gives the subject `s`, for well-formed
UTF-8 `s`. -/
theorem jsonUnmarshal_subjectJSON (s : Bytes) (hv : validUTF8 s = true) :
    jsonUnmarshal (subjectJSON s) = some ⟨s⟩ := by
  have hstr : parseString (jsonEscape s ++ [34, 125]).length (jsonEscape s ++ [34, 125])
      = some (s, [125]) := by
    apply parseString_escape s.length s hv
    simp
  have hkey : ∀ (fuel : Nat) (rest : Bytes), 4 ≤ fuel →
      parseString fuel (115 :: 117 :: 98 :: 34 :: rest) = some ([115, 117, 98], rest) := by
    intro fuel rest hf
    obtain ⟨n, rfl⟩ : ∃ n, fuel = n + 4 := ⟨fuel - 4, by omega⟩
    simp [parseString]
  have hobj : ∀ n : Nat, parseObject (n + 3)
      (34 :: 115 :: 117 :: 98 :: 34 :: 58 :: 34 :: (jsonEscape s ++ [34, 125]))
        = some ([([115, 117, 98], Lit.str s)], []) := by
    intro n
    have hk := hkey (115 :: 117 :: 98 :: 34 :: 58 :: 34 :: (jsonEscape s ++ [34, 125])).length
      (58 :: 34 :: (jsonEscape s ++ [34, 125])) (by simp)
    simp only [parseObject, parseMembers, parseValue, skipWS, List.dropWhile_cons, isSpace,
      Nat.reduceBEq, Bool.or_self, Bool.false_eq_true, if_false, if_true, hk, hstr,
      Nat.reduceEqDiff, List.dropWhile_nil]
  have hdoc : parseDoc (subjectJSON s) = some (Doc.object [([115, 117, 98], Lit.str s)]) := by
    unfold parseDoc
    simp only [subjectJSON, ofStr_sub_open, ofStr_sub_close, List.cons_append, List.nil_append,
      skipWS, List.dropWhile_cons]
    simp only [isSpace, Nat.reduceBEq, Bool.or_self, Bool.false_eq_true, if_false, if_true,
      List.length_cons, List.length_append, List.length_nil]
    have hfuel : (jsonEscape s).length + (0 + 1 + 1) + 1 + 1 + 1 + 1 + 1 + 1 + 1 + 1 + 1
        = ((jsonEscape s).length + 8) + 3 := by omega
    rw [hfuel, hobj]
    simp
  unfold jsonUnmarshal
  rw [hdoc]
  simp [decodeMembers, matchesSub]

/-! ## Lemmas on base64 -/

theorem stdDecodeMap_urlEncodeChar :
    ∀ n, n < 64 → stdDecodeMap (replaceByte (urlEncodeChar n)) = some n := by decide

/-- The characters of the URL-safe alphabet. -/
theorem urlEncodeChar_alphabet (n : Nat) :
    (65 ≤ urlEncodeChar n ∧ urlEncodeChar n ≤ 90) ∨ (97 ≤ urlEncodeChar n ∧ urlEncodeChar n ≤ 122)
      ∨ (48 ≤ urlEncodeChar n ∧ urlEncodeChar n ≤ 57) ∨ urlEncodeChar n = 45
      ∨ urlEncodeChar n = 95 := by
  unfold urlEncodeChar
  split_ifs <;> omega

theorem base64URLEncode_alphabet : ∀ (bs : Bytes) (x : Nat), x ∈ base64URLEncode bs →
    (65 ≤ x ∧ x ≤ 90) ∨ (97 ≤ x ∧ x ≤ 122) ∨ (48 ≤ x ∧ x ≤ 57) ∨ x = 45 ∨ x = 95
  | [], x, h => by simp [base64URLEncode] at h
  | [a], x, h => by
    simp only [base64URLEncode, List.mem_cons, List.mem_singleton, List.not_mem_nil,
      or_false] at h
    rcases h with h | h <;> rw [h] <;> exact urlEncodeChar_alphabet _
  | [a, b], x, h => by
    simp only [base64URLEncode, List.mem_cons, List.mem_singleton, List.not_mem_nil,
      or_false] at h
    rcases h with h | h | h <;> rw [h] <;> exact urlEncodeChar_alphabet _
  | a :: b :: c :: rest, x, h => by
    simp only [base64URLEncode, List.mem_cons] at h
    rcases h with h | h | h | h | h
    · rw [h]; exact urlEncodeChar_alphabet _
    · rw [h]; exact urlEncodeChar_alphabet _
    · rw [h]; exact urlEncodeChar_alphabet _
    · rw [h]; exact urlEncodeChar_alphabet _
    · exact base64URLEncode_alphabet rest x h

theorem base64URLEncode_length : ∀ bs : Bytes,
    (base64URLEncode bs).length % 4 ≠ 1 ∧ (bs ≠ [] → base64URLEncode bs ≠ [])
  | [] => by simp [base64URLEncode]
  | [a] => by simp [base64URLEncode]
  | [a, b] => by simp [base64URLEncode]
  | a :: b :: c :: rest => by
    have ih := (base64URLEncode_length rest).1
    simp only [base64URLEncode, List.length_cons]
    refine ⟨by omega, by simp⟩

theorem addBase64Padding_quantum (a b c d : Nat) (s : Bytes) (hs : s.length % 4 ≠ 1) :
    addBase64Padding (a :: b :: c :: d :: s) = a :: b :: c :: d :: addBase64Padding s := by
  have h : (a :: b :: c :: d :: s).length % 4 = s.length % 4 := by
    simp only [List.length_cons]
    omega
  unfold addBase64Padding
  rw [h]
  split_ifs
  · rfl
  · rfl
  · rfl
  · omega

theorem stdDecodeMap_pad : stdDecodeMap 61 = none := by decide

theorem replaceByte_pad : replaceByte 61 = 61 := by decide

/-- Decoding undoes the encoding: the quanta of the padded, translated base64url text
of a byte string decode to that byte string. -/
theorem decodeQuanta_encode : ∀ bs : Bytes, IsBytes bs →
    decodeQuanta (base64URLReplacer (addBase64Padding (base64URLEncode bs))) = some bs
  | [], _ => by decide
  | [a], h => by
    have ha : a < 256 := h a (by simp)
    have h0 := stdDecodeMap_urlEncodeChar (a / 4) (by omega)
    have h1 := stdDecodeMap_urlEncodeChar (a % 4 * 16) (by omega)
    have hq : quantumVal (a / 4) (a % 4 * 16) 0 0 / 65536 % 256 = a := by
      unfold quantumVal
      omega
    simp only [base64URLEncode, addBase64Padding, base64URLReplacer, ofStr_eq2, List.length_cons,
      List.length_nil, List.map_cons, List.map_nil, replaceByte_pad, List.cons_append,
      List.nil_append, Nat.reduceAdd, Nat.reduceMod, OfNat.ofNat_ne_zero, if_false, if_true]
    simp only [decodeQuanta, h0, h1, stdDecodeMap_pad, hq, and_self, if_true]
  | [a, b], h => by
    have ha : a < 256 := h a (by simp)
    have hb : b < 256 := h b (by simp)
    have h0 := stdDecodeMap_urlEncodeChar (a / 4) (by omega)
    have h1 := stdDecodeMap_urlEncodeChar (a % 4 * 16 + b / 16) (by omega)
    have h2 := stdDecodeMap_urlEncodeChar (b % 16 * 4) (by omega)
    have hq : quantumVal (a / 4) (a % 4 * 16 + b / 16) (b % 16 * 4) 0 / 65536 % 256 = a := by
      unfold quantumVal
      omega
    have hq2 : quantumVal (a / 4) (a % 4 * 16 + b / 16) (b % 16 * 4) 0 / 256 % 256 = b := by
      unfold quantumVal
      omega
    simp only [base64URLEncode, addBase64Padding, base64URLReplacer, ofStr_eq1, List.length_cons,
      List.length_nil, List.map_cons, List.map_nil, replaceByte_pad, List.cons_append,
      List.nil_append, Nat.reduceAdd, Nat.reduceMod, OfNat.ofNat_ne_zero, if_false, if_true,
      Nat.reduceEqDiff]
    simp only [decodeQuanta, h0, h1, h2, stdDecodeMap_pad, hq, hq2, and_self, if_true]
  | a :: b :: c :: rest, h => by
    have ha : a < 256 := h a (by simp)
    have hb : b < 256 := h b (by simp)
    have hc : c < 256 := h c (by simp)
    have hr : IsBytes rest := fun x hx => h x (by simp [hx])
    have ih := decodeQuanta_encode rest hr
    have h0 := stdDecodeMap_urlEncodeChar (a / 4) (by omega)
    have h1 := stdDecodeMap_urlEncodeChar (a % 4 * 16 + b / 16) (by omega)
    have h2 := stdDecodeMap_urlEncodeChar (b % 16 * 4 + c / 64) (by omega)
    have h3 := stdDecodeMap_urlEncodeChar (c % 64) (by omega)
    have hq : quantumVal (a / 4) (a % 4 * 16 + b / 16) (b % 16 * 4 + c / 64) (c % 64)
        / 65536 % 256 = a := by
      unfold quantumVal
      omega
    have hq2 : quantumVal (a / 4) (a % 4 * 16 + b / 16) (b % 16 * 4 + c / 64) (c % 64)
        / 256 % 256 = b := by
      unfold quantumVal
      omega
    have hq3 : quantumVal (a / 4) (a % 4 * 16 + b / 16) (b % 16 * 4 + c / 64) (c % 64)
        % 256 = c := by
      unfold quantumVal
      omega
    rw [base64URLEncode, addBase64Padding_quantum _ _ _ _ _ (base64URLEncode_length rest).1]
    unfold base64URLReplacer at ih ⊢
    simp only [List.map_cons]
    rw [decodeQuanta]
    simp only [h0, h1, h2, h3, ih, hq, hq2, hq3]

theorem mem_addBase64Padding (y : Nat) (s : Bytes) (h : y ∈ addBase64Padding s) :
    y ∈ s ∨ y = 61 := by
  unfold addBase64Padding at h
  split_ifs at h
  · exact Or.inl h
  · simp only [ofStr_eq2, List.mem_append, List.mem_cons, List.mem_singleton, List.not_mem_nil,
      or_false, or_self] at h
    exact h
  · simp only [ofStr_eq1, List.mem_append, List.mem_singleton] at h
    exact h
  · cases h

theorem addBase64Padding_ne_nil (p : Bytes) (hp : p ≠ []) (h1 : p.length % 4 ≠ 1) :
    addBase64Padding p ≠ [] := by
  unfold addBase64Padding
  split_ifs
  · exact hp
  · simp [hp]
  · simp [hp]
  · omega

/-- The standard decoder undoes the base64url encoder once the text is padded and
translated. -/
theorem stdDecodeString_encode (bs : Bytes) (h : IsBytes bs) :
    stdDecodeString (base64URLReplacer (addBase64Padding (base64URLEncode bs))) = some bs := by
  unfold stdDecodeString
  rw [List.filter_eq_self.mpr]
  · exact decodeQuanta_encode bs h
  · intro x hx
    unfold base64URLReplacer at hx
    obtain ⟨y, hy, rfl⟩ := List.mem_map.mp hx
    have hy' : (65 ≤ y ∧ y ≤ 90) ∨ (97 ≤ y ∧ y ≤ 122) ∨ (48 ≤ y ∧ y ≤ 57) ∨ y = 45 ∨ y = 95
        ∨ y = 61 := by
      rcases mem_addBase64Padding y _ hy with h1 | h1
      · have := base64URLEncode_alphabet bs y h1
        omega
      · omega
    have h10 : replaceByte y ≠ 10 ∧ replaceByte y ≠ 13 := by
      unfold replaceByte
      split_ifs <;> omega
    simp [h10.1, h10.2]

/-- The subject of a token built from the JSON text of `{"sub": s}` is `s`. -/
theorem parseJWTSubject_encode (s : Bytes) (hv : validUTF8 s = true) :
    parseJWTSubject (ofStr "JWT h." ++ base64URLEncode (subjectJSON s) ++ ofStr ".s") = s := by
  have hb : IsBytes (subjectJSON s) :=
    subjectJSON_isBytes s (validUTF8Aux_isBytes s.length s hv)
  have hjne : subjectJSON s ≠ [] := by
    simp [subjectJSON, ofStr_sub_open]
  have hpne : base64URLEncode (subjectJSON s) ≠ [] := (base64URLEncode_length _).2 hjne
  have hplen := (base64URLEncode_length (subjectJSON s)).1
  have hpdot : ∀ x ∈ base64URLEncode (subjectJSON s), notDot x = true := by
    intro x hx
    have := base64URLEncode_alphabet _ x hx
    simp only [notDot, bne_iff_ne, ne_eq]
    omega
  have hhdr : ofStr "JWT h." ++ base64URLEncode (subjectJSON s) ++ ofStr ".s"
      = ofStr "JWT " ++ ofStr "h" ++ ofStr "." ++ base64URLEncode (subjectJSON s) ++ ofStr "."
        ++ ofStr "s" := by
    simp [ofStr, encodeRune]
  have hreg := authorizationRegexp_segments (ofStr "h") (base64URLEncode (subjectJSON s))
    (ofStr "s") (by decide) hpdot (by decide)
  rw [if_pos ⟨by decide, hpne, by decide⟩] at hreg
  rw [hhdr]
  unfold parseJWTSubject
  simp only [hreg, List.length_cons, List.length_nil, List.getD_cons_succ, List.getD_cons_zero]
  have hpad : (addBase64Padding (base64URLEncode (subjectJSON s))).length ≠ 0 := by
    intro h0
    exact addBase64Padding_ne_nil _ hpne hplen (List.length_eq_zero.mp h0)
  rw [if_neg (by omega), if_neg hpad]
  simp only [stdDecodeString_encode _ hb, jsonUnmarshal_subjectJSON s hv]

theorem parseJWTSubject_eq (s : Bytes) :
    parseJWTSubject s = if (authorizationRegexp s).length = 0 then []
      else subjectOfPayload ((authorizationRegexp s).getD 1 []) := rfl

/-- What stops a run without full stops is a full stop. -/
theorem dropWhile_notDot_head (t : Bytes) (d : Nat) (r : Bytes)
    (h : t.dropWhile notDot = d :: r) : d = 46 ∧ t = t.takeWhile notDot ++ 46 :: r := by
  have hd : notDot d = false := by
    have := List.head_dropWhile_not notDot t (by rw [h]; simp)
    simpa [h] using this
  have hd' : d = 46 := by
    simpa [notDot] using hd
  refine ⟨hd', ?_⟩
  have := List.takeWhile_append_dropWhile notDot t
  rw [h, hd'] at this
  exact this.symm

/-- A header that matches the pattern is `JWT `, then three non-empty segments without
full stops, separated by full stops; the capture group is the middle one. -/
theorem authorizationRegexp_match (s : Bytes) (hm : authorizationRegexp s ≠ []) :
    ∃ h p g : Bytes, s = ofStr "JWT " ++ h ++ ofStr "." ++ p ++ ofStr "." ++ g
      ∧ h ≠ [] ∧ p ≠ [] ∧ g ≠ []
      ∧ (∀ x ∈ h, notDot x = true) ∧ (∀ x ∈ p, notDot x = true) ∧ (∀ x ∈ g, notDot x = true)
      ∧ authorizationRegexp s = [s, p] := by
  unfold authorizationRegexp at hm ⊢
  by_cases hpre : (ofStr "JWT ").isPrefixOf s = true
  · rw [if_pos hpre] at hm ⊢
    have hs : s = ofStr "JWT " ++ s.drop 4 := by
      obtain ⟨t, ht⟩ := List.isPrefixOf_iff_prefix.mp hpre
      rw [← ht]
      simp [ofStr_jwt]
    cases h1 : (s.drop 4).dropWhile notDot with
    | nil => simp [h1] at hm
    | cons d1 t1 =>
      simp only [h1] at hm ⊢
      cases h2 : t1.dropWhile notDot with
      | nil => simp [h2] at hm
      | cons d2 t2 =>
        simp only [h2] at hm ⊢
        by_cases hc : (s.drop 4).takeWhile notDot ≠ [] ∧ t1.takeWhile notDot ≠ [] ∧ t2 ≠ []
            ∧ t2.all notDot = true
        · rw [if_pos hc]
          obtain ⟨_, e1⟩ := dropWhile_notDot_head _ _ _ h1
          obtain ⟨_, e2⟩ := dropWhile_notDot_head _ _ _ h2
          refine ⟨(s.drop 4).takeWhile notDot, t1.takeWhile notDot, t2, ?_, hc.1, hc.2.1,
            hc.2.2.1, fun x hx => List.mem_takeWhile_imp hx,
            fun x hx => List.mem_takeWhile_imp hx, List.all_eq_true.mp hc.2.2.2, rfl⟩
          calc s = ofStr "JWT " ++ s.drop 4 := hs
            _ = ofStr "JWT " ++ ((s.drop 4).takeWhile notDot ++ 46 :: t1) := by rw [← e1]
            _ = ofStr "JWT " ++ ((s.drop 4).takeWhile notDot
                  ++ 46 :: (t1.takeWhile notDot ++ 46 :: t2)) := by rw [← e2]
            _ = _ := by simp [ofStr_dot]
        · rw [if_neg hc] at hm
          exact absurd rfl hm
  · rw [if_neg hpre] at hm
    exact absurd rfl hm

/-- The pattern on `JWT h.p.g` with `h` and `g` free of full stops and `p` arbitrary:
it matches exactly when the three are non-empty and `p` has no full stop either. -/
theorem authorizationRegexp_payload (h p g : Bytes)
    (hh : ∀ x ∈ h, notDot x = true) (hg : ∀ x ∈ g, notDot x = true) :
    authorizationRegexp (ofStr "JWT " ++ h ++ ofStr "." ++ p ++ ofStr "." ++ g)
      = if h ≠ [] ∧ p ≠ [] ∧ g ≠ [] ∧ p.all notDot = true then
          [ofStr "JWT " ++ h ++ ofStr "." ++ p ++ ofStr "." ++ g, p]
        else [] := by
  by_cases hp : p.all notDot = true
  · rw [authorizationRegexp_segments h p g hh (List.all_eq_true.mp hp) hg]
    simp only [hp, and_true]
  · rw [if_neg (fun hc => hp hc.2.2.2)]
    by_contra hm
    obtain ⟨h', p', g', hs, _, _, _, hh', hp', hg', _⟩ := authorizationRegexp_match _ hm
    apply hp
    have hcount : (ofStr "JWT " ++ h ++ ofStr "." ++ p ++ ofStr "." ++ g).count 46
        = (ofStr "JWT " ++ h' ++ ofStr "." ++ p' ++ ofStr "." ++ g').count 46 := by
      rw [← hs]
    have z : ∀ l : Bytes, (∀ x ∈ l, notDot x = true) → l.count 46 = 0 := by
      intro l hl
      rw [List.count_eq_zero]
      intro hmem
      have := hl 46 hmem
      simp [notDot] at this
    simp only [List.count_append, z h hh, z g hg, z h' hh', z p' hp', z g' hg', ofStr_jwt,
      ofStr_dot] at hcount
    have hp0 : p.count 46 = 0 := by
      simp at hcount
      omega
    rw [List.all_eq_true]
    intro x hx
    simp only [notDot, bne_iff_ne, ne_eq]
    rintro rfl
    exact (List.count_eq_zero.mp hp0) hx



theorem subjectOfPayload_nil : subjectOfPayload [] = [] := by decide

theorem count_notDot (l : Bytes) (hl : ∀ x ∈ l, notDot x = true) : l.count 46 = 0 := by
  rw [List.count_eq_zero]
  intro hmem
  have := hl 46 hmem
  simp [notDot] at this

/-- A header that matches has exactly two full stops after its first four bytes. -/
theorem authorizationRegexp_two_dots (s : Bytes) (hm : authorizationRegexp s ≠ []) :
    (s.drop 4).count 46 = 2 := by
  obtain ⟨h, p, g, hs, _, _, _, hh, hp, hg, _⟩ := authorizationRegexp_match s hm
  have hd : s.drop 4 = h ++ 46 :: (p ++ 46 :: g) := by
    rw [hs]
    simp [ofStr_jwt, ofStr_dot]
  rw [hd]
  simp [List.count_append, List.count_cons, count_notDot h hh, count_notDot p hp,
    count_notDot g hg]

theorem parseJWTSubject_no_match (s : Bytes) (h : authorizationRegexp s = []) :
    parseJWTSubject s = [] := by
  rw [parseJWTSubject_eq, h]
  rfl

/-- The subject of `JWT h.p.g`, for `h` and `g` non-empty and free of full stops: the
steps after the match applied to `p` when `p` is free of full stops, nothing
otherwise. -/
theorem parseJWTSubject_payload (h p g : Bytes) (hh : ∀ x ∈ h, notDot x = true)
    (hg : ∀ x ∈ g, notDot x = true) (hhne : h ≠ []) (hgne : g ≠ []) :
    parseJWTSubject (ofStr "JWT " ++ h ++ ofStr "." ++ p ++ ofStr "." ++ g)
      = if p.all notDot = true then subjectOfPayload p else [] := by
  have hreg := authorizationRegexp_payload h p g hh hg
  by_cases hp : p.all notDot = true
  · rw [if_pos hp]
    by_cases hpne : p = []
    · subst hpne
      rw [if_neg (fun hc => hc.2.1 rfl)] at hreg
      rw [parseJWTSubject_no_match _ hreg, subjectOfPayload_nil]
    · rw [if_pos ⟨hhne, hpne, hgne, hp⟩] at hreg
      rw [parseJWTSubject_eq, hreg]
      rfl
  · rw [if_neg (fun hc => hp hc.2.2.2)] at hreg
    rw [if_neg hp, parseJWTSubject_no_match _ hreg]

theorem replaceByte_idem (b : Nat) : replaceByte (replaceByte b) = replaceByte b := by
  unfold replaceByte
  split_ifs <;> omega

theorem base64URLReplacer_idem (s : Bytes) :
    base64URLReplacer (base64URLReplacer s) = base64URLReplacer s := by
  unfold base64URLReplacer
  rw [List.map_map]
  apply List.map_congr_left
  intro b _
  exact replaceByte_idem b

theorem notDot_replaceByte (b : Nat) : notDot (replaceByte b) = notDot b := by
  unfold replaceByte notDot
  split_ifs with h1 h2
  · subst h1; rfl
  · subst h2; rfl
  · rfl

theorem base64URLReplacer_all_notDot (s : Bytes) :
    (base64URLReplacer s).all notDot = s.all notDot := by
  unfold base64URLReplacer
  induction s with
  | nil => rfl
  | cons b bs ih => simp only [List.map_cons, List.all_cons, notDot_replaceByte, ih]

/-- Padding commutes with the translation of the alphabet. -/
theorem addBase64Padding_replace (s : Bytes) :
    addBase64Padding (base64URLReplacer s) = base64URLReplacer (addBase64Padding s) := by
  have hl : (base64URLReplacer s).length = s.length := by
    simp [base64URLReplacer]
  unfold addBase64Padding
  rw [hl]
  split_ifs
  · rfl
  · simp [base64URLReplacer, ofStr_eq2, replaceByte_pad]
  · simp [base64URLReplacer, ofStr_eq1, replaceByte_pad]
  · rfl

/-- The steps after the match do not see whether the payload was translated before. -/
theorem subjectOfPayload_replace (p : Bytes) :
    subjectOfPayload (base64URLReplacer p) = subjectOfPayload p := by
  unfold subjectOfPayload
  simp only [addBase64Padding_replace, base64URLReplacer_idem]
  have hl : (base64URLReplacer (addBase64Padding p)).length = (addBase64Padding p).length := by
    simp [base64URLReplacer]
  rw [hl]

theorem decodeMembers_err_mono : ∀ (ms : List (Bytes × Lit)) (st : Bytes × Bool),
    st.2 = true → (decodeMembers ms st).2 = true
  | [], st, h => h
  | (key, v) :: ms, st, h => by
    unfold decodeMembers
    split_ifs
    · cases v <;> exact decodeMembers_err_mono ms _ (by first | exact h | rfl)
    · exact decodeMembers_err_mono ms st h

/-- A member that selects the field and holds a boolean, a number, an array or an
object leaves a type error. -/
theorem decodeMembers_type_error : ∀ (ms : List (Bytes × Lit)) (st : Bytes × Bool)
    (k : Bytes) (v : Lit), (k, v) ∈ ms → matchesSub k = true →
    (v = Lit.bool ∨ v = Lit.number ∨ v = Lit.array ∨ v = Lit.object) →
    (decodeMembers ms st).2 = true
  | [], _, _, _, hmem, _, _ => by cases hmem
  | (key, w) :: ms, st, k, v, hmem, hk, hv => by
    rcases List.mem_cons.mp hmem with he | hin
    · have e1 : key = k := (Prod.mk.inj he).1.symm
      have e2 : w = v := (Prod.mk.inj he).2.symm
      subst e1 e2
      unfold decodeMembers
      rw [if_pos hk]
      rcases hv with h | h | h | h <;> subst h <;> exact decodeMembers_err_mono ms _ rfl
    · have ih := fun st' => decodeMembers_type_error ms st' k v hin hk hv
      unfold decodeMembers
      split_ifs
      · cases w <;> exact ih _
      · exact ih _

/-- Members none of which selects the field leave the payload untouched. -/
theorem decodeMembers_no_match : ∀ (ms : List (Bytes × Lit)) (st : Bytes × Bool),
    (∀ kv ∈ ms, matchesSub kv.1 = false) → decodeMembers ms st = st
  | [], _, _ => rfl
  | (key, v) :: ms, st, h => by
    have hk : ¬ matchesSub key = true := by
      rw [h (key, v) (by simp)]
      simp
    unfold decodeMembers
    rw [if_neg hk]
    exact decodeMembers_no_match ms st (fun kv hkv => h kv (by simp [hkv]))

theorem subjectOfPayload_of_unmarshal_none (p js : Bytes)
    (hdec : stdDecodeString (base64URLReplacer (addBase64Padding p)) = some js)
    (hj : jsonUnmarshal js = none) : subjectOfPayload p = [] := by
  unfold subjectOfPayload
  simp only [hdec, hj]
  split_ifs <;> rfl

theorem subjectOfPayload_of_unmarshal (p js : Bytes) (payload : jwtPayload)
    (hdec : stdDecodeString (base64URLReplacer (addBase64Padding p)) = some js)
    (hj : jsonUnmarshal js = some payload) (hs : payload.Subject = []) :
    subjectOfPayload p = [] := by
  unfold subjectOfPayload
  simp only [hdec, hj, hs]
  split_ifs <;> rfl

/-- The subject of `JWT h.p.g` with all three segments free of full stops is empty
whenever the steps after the match give nothing for `p`. -/
theorem parseJWTSubject_of_payload_nil (h p g : Bytes)
    (hh : ∀ x ∈ h, x ≠ 46) (hp : ∀ x ∈ p, x ≠ 46) (hg : ∀ x ∈ g, x ≠ 46)
    (hs : subjectOfPayload p = []) :
    parseJWTSubject (ofStr "JWT " ++ h ++ ofStr "." ++ p ++ ofStr "." ++ g) = [] := by
  have c : ∀ l : Bytes, (∀ x ∈ l, x ≠ 46) → ∀ x ∈ l, notDot x = true :=
    fun l hl x hx => by simpa [notDot] using hl x hx
  have hreg := authorizationRegexp_segments h p g (c h hh) (c p hp) (c g hg)
  by_cases hc : h ≠ [] ∧ p ≠ [] ∧ g ≠ []
  · rw [if_pos hc] at hreg
    rw [parseJWTSubject_eq, hreg]
    exact hs
  · rw [if_neg hc] at hreg
    exact parseJWTSubject_no_match _ hreg

theorem natDigits_one (f n : Nat) (h : n < 10) : natDigits (f + 1) n = [48 + n] := by
  unfold natDigits
  rw [if_pos h]

theorem natDigits_step (f n : Nat) (h : 10 ≤ n) :
    natDigits (f + 1) n = natDigits f (n / 10) ++ [48 + n % 10] := by
  have c : ¬ n < 10 := by omega
  rw [natDigits, if_neg c]

theorem decimalNat_one (n : Nat) (h : n < 10) : decimalNat n = [48 + n] :=
  natDigits_one n n h

theorem decimalNat_two (n : Nat) (h1 : 10 ≤ n) (h2 : n < 100) :
    decimalNat n = [48 + n / 10, 48 + n % 10] := by
  obtain ⟨f, hf⟩ : ∃ f, n + 1 = f + 2 := ⟨n - 1, by omega⟩
  unfold decimalNat
  rw [hf, natDigits_step (f + 1) n h1, natDigits_one f (n / 10) (by omega)]
  rfl

theorem decimalNat_three (n : Nat) (h1 : 100 ≤ n) (h2 : n < 1000) :
    decimalNat n = [48 + n / 100, 48 + n / 10 % 10, 48 + n % 10] := by
  obtain ⟨f, hf⟩ : ∃ f, n + 1 = f + 3 := ⟨n - 2, by omega⟩
  have e : n / 10 / 10 = n / 100 := by omega
  unfold decimalNat
  rw [hf, natDigits_step (f + 2) n (by omega), natDigits_step (f + 1) (n / 10) (by omega),
    natDigits_one f (n / 10 / 10) (by omega), e]
  rfl

theorem decimalNat_four (n : Nat) (h1 : 1000 ≤ n) (h2 : n < 10000) :
    decimalNat n = [48 + n / 1000, 48 + n / 100 % 10, 48 + n / 10 % 10, 48 + n % 10] := by
  obtain ⟨f, hf⟩ : ∃ f, n + 1 = f + 4 := ⟨n - 3, by omega⟩
  have e : n / 10 / 10 / 10 = n / 1000 := by omega
  have e' : n / 10 / 10 % 10 = n / 100 % 10 := by omega
  unfold decimalNat
  rw [hf, natDigits_step (f + 3) n (by omega), natDigits_step (f + 2) (n / 10) (by omega),
    natDigits_step (f + 1) (n / 10 / 10) (by omega),
    natDigits_one f (n / 10 / 10 / 10) (by omega), e, e']
  rfl

/-- Two digits, zero-padded, for a number below 100. -/
theorem appendInt_two (n : Nat) (h : n < 100) :
    appendInt (n : Int) 2 = [48 + n / 10, 48 + n % 10] := by
  have c : ¬ ((n : Int) < 0) := by omega
  unfold appendInt
  rw [if_neg c, Int.natAbs_ofNat]
  by_cases h10 : n < 10
  · have e1 : n / 10 = 0 := by omega
    have e2 : n % 10 = n := by omega
    rw [decimalNat_one n h10, e1, e2]
    rfl
  · rw [decimalNat_two n (by omega) h]
    rfl

/-- Four digits, zero-padded, for a number below 10000. -/
theorem appendInt_four (n : Nat) (h : n < 10000) :
    appendInt (n : Int) 4 = [48 + n / 1000, 48 + n / 100 % 10, 48 + n / 10 % 10, 48 + n % 10] := by
  have c : ¬ ((n : Int) < 0) := by omega
  unfold appendInt
  rw [if_neg c, Int.natAbs_ofNat]
  by_cases h10 : n < 10
  · have e1 : n / 1000 = 0 := by omega
    have e2 : n / 100 % 10 = 0 := by omega
    have e3 : n / 10 % 10 = 0 := by omega
    have e4 : n % 10 = n := by omega
    rw [decimalNat_one n h10, e1, e2, e3, e4]
    rfl
  by_cases h100 : n < 100
  · have e1 : n / 1000 = 0 := by omega
    have e2 : n / 100 % 10 = 0 := by omega
    have e3 : n / 10 % 10 = n / 10 := by omega
    rw [decimalNat_two n (by omega) h100, e1, e2, e3]
    rfl
  by_cases h1000 : n < 1000
  · have e1 : n / 1000 = 0 := by omega
    have e2 : n / 100 % 10 = n / 100 := by omega
    rw [decimalNat_three n (by omega) h1000, e1, e2]
    rfl
  · rw [decimalNat_four n (by omega) h]
    rfl

theorem shortMonthNames_length : ∀ m : Nat, m < 12 →
    (ofStr (shortMonthNames.getD m "")).length = 3 := by decide

/-- The zone offset in whole minutes of an offset within 100 hours. -/
theorem zone_minutes_lt (o : Int) (h1 : -360000 < o) (h2 : o < 360000) :
    (Int.tdiv o 60).natAbs < 6000 := by
  by_cases h : 0 ≤ o
  · rw [Int.tdiv_eq_ediv h (by decide)]
    omega
  · have e : Int.tdiv o 60 = -((-o) / 60) := by
      have := Int.neg_tdiv (-o) 60
      rw [Int.neg_neg] at this
      rw [this, Int.tdiv_eq_ediv (by omega) (by decide)]
    rw [e]
    omega

theorem count_newline_digits (l : Bytes) (h : ∀ d ∈ l, 48 ≤ d ∧ d ≤ 57) : l.count 10 = 0 := by
  rw [List.count_eq_zero]
  intro hmem
  have := h 10 hmem
  omega

theorem decimalNat_count_newline (n : Nat) : (decimalNat n).count 10 = 0 :=
  count_newline_digits _ (decimalNat_value n).2

theorem decimal_count_newline (n : Int) : (decimal n).count 10 = 0 := by
  unfold decimal
  split_ifs
  · rw [List.count_cons]
    simp [decimalNat_count_newline]
  · exact decimalNat_count_newline _

theorem appendInt_count_newline (x : Int) (w : Nat) : (appendInt x w).count 10 = 0 := by
  have hr : (List.replicate (w - (decimalNat x.natAbs).length) 48).count 10 = 0 := by
    rw [List.count_eq_zero]
    intro hmem
    have := List.eq_of_mem_replicate hmem
    omega
  unfold appendInt
  simp only [List.count_append, decimalNat_count_newline, hr]
  split_ifs <;> rfl

theorem monthName_count_newline (i : Nat) :
    (ofStr (shortMonthNames.getD i "")).count 10 = 0 := by
  by_cases h : i < 12
  · revert i
    decide
  · rw [List.getD_eq_default _ _ (by simp [shortMonthNames]; omega)]
    rfl

/-- A timestamp holds no newline. -/
theorem formatCommonLog_count_newline (t : Time) : t.formatCommonLog.count 10 = 0 := by
  unfold Time.formatCommonLog
  simp only [List.count_append, appendInt_count_newline, monthName_count_newline]
  split_ifs <;> decide

/-! ## Claims -/

/-- C1. For a record with every field present and well-formed, `Format` returns
exactly the common-log line: client host, `-`, subject, bracketed timestamp, quoted
request line, status, size, quoted referer and user agent, request count, quoted
frontend and backend, elapsed milliseconds with `ms`, single spaces between the fields
and one newline at the end; the subject is what `extractJWTSubject` gives for the
`Authorization` header with the default `-`. -/
theorem Format_full_record (entry : Entry)
    (host method path protocol referer userAgent frontend backend : Bytes)
    (ks kz kc : IntKind) (status size count : Int)
    (start : Time) (stext : Bytes) (ns : Int) (dtext : Bytes)
    (hhost : entry.Data ClientHost = some (.str host))
    (hstart : entry.Data StartUTC = some (.time start stext))
    (hdur : entry.Data Duration = some (.duration ns dtext))
    (hmethod : entry.Data RequestMethod = some (.str method))
    (hpath : entry.Data RequestPath = some (.str path))
    (hproto : entry.Data RequestProtocol = some (.str protocol))
    (hstatus : entry.Data OriginStatus = some (.int ks status))
    (hsize : entry.Data OriginContentSize = some (.int kz size))
    (hreferer : entry.Data "request_Referer" = some (.str referer))
    (hagent : entry.Data "request_User-Agent" = some (.str userAgent))
    (hcount : entry.Data RequestCount = some (.int kc count))
    (hfrontend : entry.Data FrontendName = some (.str frontend))
    (hbackend : entry.Data BackendURL = some (.str backend))
    (hr : referer ≠ []) (hu : userAgent ≠ []) (hf : frontend ≠ []) (hb : backend ≠ []) :
    Format entry = .ret
      (host ++ ofStr " - "
        ++ extractJWTSubject (entry.Data "request_Authorization") (ofStr "-")
        ++ ofStr " [" ++ start.formatCommonLog ++ ofStr "] \""
        ++ method ++ ofStr " " ++ path ++ ofStr " " ++ protocol ++ ofStr "\" "
        ++ decimal status ++ ofStr " " ++ decimal size
        ++ ofStr " \"" ++ referer ++ ofStr "\" \"" ++ userAgent ++ ofStr "\" "
        ++ decimal count
        ++ ofStr " \"" ++ frontend ++ ofStr "\" \"" ++ backend ++ ofStr "\" "
        ++ decimal (Int.tdiv ns 1000000) ++ ofStr "ms\n", none) := by
  rw [Format_ret entry start stext ns dtext hstart hdur]
  simp [operands, Operands.line, toLog, quoted, fmtS, fmtV, hhost, hmethod, hpath, hproto,
    hstatus, hsize, hreferer, hagent, hcount, hfrontend, hbackend, hr, hu, hf, hb,
    ofStr, encodeRune]

/-- Witness for C1: the record with every field present, whose token payload is
`{"sub":"alice"}`. -/
theorem Format_full_record_witness :
    Format fullEntry = .ret
      (ofStr ("10.0.0.1 - alice [10/Jun/2024:13:45:02 +0000] \"GET /health HTTP/1.1\" 200 12 "
        ++ "\"http://example.com/\" \"curl/7.58.0\" 7 \"web\" \"http://10.0.0.2:80\" 250ms\n"),
        none)
    ∧ Format fullEntry = .ret
      (ofStr "10.0.0.1" ++ ofStr " - "
        ++ extractJWTSubject (fullEntry.Data "request_Authorization") (ofStr "-")
        ++ ofStr " [" ++ Time.formatCommonLog ⟨2024, 6, 10, 13, 45, 2, 0⟩ ++ ofStr "] \""
        ++ ofStr "GET" ++ ofStr " " ++ ofStr "/health" ++ ofStr " " ++ ofStr "HTTP/1.1"
        ++ ofStr "\" " ++ decimal 200 ++ ofStr " " ++ decimal 12
        ++ ofStr " \"" ++ ofStr "http://example.com/" ++ ofStr "\" \"" ++ ofStr "curl/7.58.0"
        ++ ofStr "\" " ++ decimal 7
        ++ ofStr " \"" ++ ofStr "web" ++ ofStr "\" \"" ++ ofStr "http://10.0.0.2:80"
        ++ ofStr "\" " ++ decimal (Int.tdiv 250000000 1000000) ++ ofStr "ms\n", none) :=
  ⟨by decide,
   Format_full_record fullEntry (ofStr "10.0.0.1") (ofStr "GET") (ofStr "/health")
     (ofStr "HTTP/1.1") (ofStr "http://example.com/") (ofStr "curl/7.58.0") (ofStr "web")
     (ofStr "http://10.0.0.2:80") .int .int64 .uint64 200 12 7 ⟨2024, 6, 10, 13, 45, 2, 0⟩
     (ofStr "2024-06-10 13:45:02 +0000 UTC") 250000000 (ofStr "250ms")
     (by decide) (by decide) (by decide) (by decide) (by decide) (by decide) (by decide)
     (by decide) (by decide) (by decide) (by decide) (by decide) (by decide)
     (by decide) (by decide) (by decide) (by decide)⟩

/-- C2. For a structurally valid record, removing one of the fields rendered through
`toLog` changes only that field's operand of the line, which becomes the field's
default token (`-` for the status, the size, the request count, the frontend and the
backend, `"-"` for the referer and the user agent); every other operand, and the
layout around them, is unchanged. The example record without `Authorization` header,
referer, user agent and request count formats to the line of the specification. -/
theorem Format_remove_field (entry : Entry) (start : Time) (stext : Bytes) (ns : Int)
    (dtext : Bytes) (hs : entry.Data StartUTC = some (.time start stext))
    (hd : entry.Data Duration = some (.duration ns dtext)) :
    Format entry = .ret ((operands entry start ns).line, none)
    ∧ Format (entry.remove OriginStatus)
        = .ret (({ operands entry start ns with status := ofStr "-" }).line, none)
    ∧ Format (entry.remove OriginContentSize)
        = .ret (({ operands entry start ns with size := ofStr "-" }).line, none)
    ∧ Format (entry.remove "request_Referer")
        = .ret (({ operands entry start ns with referer := ofStr "\"-\"" }).line, none)
    ∧ Format (entry.remove "request_User-Agent")
        = .ret (({ operands entry start ns with userAgent := ofStr "\"-\"" }).line, none)
    ∧ Format (entry.remove RequestCount)
        = .ret (({ operands entry start ns with count := ofStr "-" }).line, none)
    ∧ Format (entry.remove FrontendName)
        = .ret (({ operands entry start ns with frontend := ofStr "-" }).line, none)
    ∧ Format (entry.remove BackendURL)
        = .ret (({ operands entry start ns with backend := ofStr "-" }).line, none)
    ∧ Format exampleEntry = .ret
        (ofStr ("10.0.0.1 - - [10/Jun/2024:13:45:02 +0000] \"GET /health HTTP/1.1\" 200 12 "
          ++ "\"-\" \"-\" - \"web\" \"http://10.0.0.2:80\" 250ms\n"), none) := by
  have key : ∀ k : String, k ≠ StartUTC → k ≠ Duration →
      Format (entry.remove k) = .ret ((operands (entry.remove k) start ns).line, none) := by
    intro k h1 h2
    apply Format_ret (entry.remove k) start stext ns dtext
    · rw [remove_data_ne entry k StartUTC (Ne.symm h1)]
      exact hs
    · rw [remove_data_ne entry k Duration (Ne.symm h2)]
      exact hd
  refine ⟨Format_ret entry start stext ns dtext hs hd, ?_, ?_, ?_, ?_, ?_, ?_, ?_, by decide⟩
  · rw [key OriginStatus (by decide) (by decide)]
    simp [operands, Entry.remove, OriginStatus, OriginContentSize, RequestCount, FrontendName,
      BackendURL, ClientHost, RequestMethod, RequestPath, RequestProtocol, toLog, fmtV,
      defaultValue]
  · rw [key OriginContentSize (by decide) (by decide)]
    simp [operands, Entry.remove, OriginStatus, OriginContentSize, RequestCount, FrontendName,
      BackendURL, ClientHost, RequestMethod, RequestPath, RequestProtocol, toLog, fmtV,
      defaultValue]
  · rw [key "request_Referer" (by decide) (by decide)]
    simp [operands, Entry.remove, OriginStatus, OriginContentSize, RequestCount, FrontendName,
      BackendURL, ClientHost, RequestMethod, RequestPath, RequestProtocol, toLog, fmtS,
      defaultValue]
  · rw [key "request_User-Agent" (by decide) (by decide)]
    simp [operands, Entry.remove, OriginStatus, OriginContentSize, RequestCount, FrontendName,
      BackendURL, ClientHost, RequestMethod, RequestPath, RequestProtocol, toLog, fmtS,
      defaultValue]
  · rw [key RequestCount (by decide) (by decide)]
    simp [operands, Entry.remove, OriginStatus, OriginContentSize, RequestCount, FrontendName,
      BackendURL, ClientHost, RequestMethod, RequestPath, RequestProtocol, toLog, fmtV,
      defaultValue]
  · rw [key FrontendName (by decide) (by decide)]
    simp [operands, Entry.remove, OriginStatus, OriginContentSize, RequestCount, FrontendName,
      BackendURL, ClientHost, RequestMethod, RequestPath, RequestProtocol, toLog, fmtS,
      defaultValue]
  · rw [key BackendURL (by decide) (by decide)]
    simp [operands, Entry.remove, OriginStatus, OriginContentSize, RequestCount, FrontendName,
      BackendURL, ClientHost, RequestMethod, RequestPath, RequestProtocol, toLog, fmtS,
      defaultValue]

/-- Witness for C2: the record with every field present, without its user agent. -/
theorem Format_remove_field_witness :
    Format (fullEntry.remove "request_User-Agent") = .ret
      (ofStr ("10.0.0.1 - alice [10/Jun/2024:13:45:02 +0000] \"GET /health HTTP/1.1\" 200 12 "
        ++ "\"http://example.com/\" \"-\" 7 \"web\" \"http://10.0.0.2:80\" 250ms\n"), none)
    ∧ Format (fullEntry.remove "request_User-Agent") = .ret
      (({ operands fullEntry ⟨2024, 6, 10, 13, 45, 2, 0⟩ 250000000 with
          userAgent := ofStr "\"-\"" }).line, none) :=
  ⟨by decide,
   (Format_remove_field fullEntry ⟨2024, 6, 10, 13, 45, 2, 0⟩
      (ofStr "2024-06-10 13:45:02 +0000 UTC") 250000000 (ofStr "250ms")
      (by decide) (by decide)).2.2.2.2.1⟩

/-- C3. Token extraction round trip: for a non-empty subject `s` of well-formed UTF-8,
and `p` the base64url encoding without padding of the JSON text of `{"sub": s}`, the
header `JWT h.p.s` yields exactly `s`, whatever the default. For `s = alice` the
payload is `eyJzdWIiOiJhbGljZSJ9`. -/
theorem extractJWTSubject_round_trip (s d : Bytes) (hne : s ≠ []) (hv : validUTF8 s = true) :
    extractJWTSubject
        (some (.str (ofStr "JWT h." ++ base64URLEncode (subjectJSON s) ++ ofStr ".s"))) d = s
    ∧ base64URLEncode (subjectJSON (ofStr "alice")) = ofStr "eyJzdWIiOiJhbGljZSJ9"
    ∧ subjectJSON (ofStr "alice") = ofStr "\x7b\"sub\":\"alice\"\x7d" := by
  refine ⟨?_, by decide, by decide⟩
  have hl : s.length ≠ 0 := fun h => hne (List.length_eq_zero.mp h)
  unfold extractJWTSubject
  simp only [parseJWTSubject_encode s hv]
  rw [if_neg hl]

/-- Witness for C3: the subject `alice`. -/
theorem extractJWTSubject_round_trip_witness :
    ofStr "alice" ≠ [] ∧ validUTF8 (ofStr "alice") = true
    ∧ extractJWTSubject
        (some (.str (ofStr "JWT h." ++ base64URLEncode (subjectJSON (ofStr "alice"))
          ++ ofStr ".s"))) (ofStr "-") = ofStr "alice"
    ∧ extractJWTSubject (some (.str (ofStr "JWT h.eyJzdWIiOiJhbGljZSJ9.s"))) (ofStr "-")
        = ofStr "alice" :=
  ⟨by decide, by decide,
   (extractJWTSubject_round_trip (ofStr "alice") (ofStr "-") (by decide) (by decide)).1,
   by decide⟩

/-- C4. The extractor is total and returns either the default or a non-empty subject
decoded from the payload of the header: the capture group of the pattern, padded,
translated, base64-decoded and unmarshalled. A header whose parse is empty (a payload
whose `sub` is the empty string among them) yields the default, and with a non-empty
default the result is never empty. -/
theorem extractJWTSubject_total (v : Option Value) (d : Bytes) :
    (extractJWTSubject v d = d
      ∨ (extractJWTSubject v d ≠ []
          ∧ ∃ (s q js : Bytes) (payload : jwtPayload),
              v = some (.str s)
              ∧ authorizationRegexp s = [s, q]
              ∧ stdDecodeString (base64URLReplacer (addBase64Padding q)) = some js
              ∧ jsonUnmarshal js = some payload
              ∧ extractJWTSubject v d = payload.Subject))
    ∧ (d ≠ [] → extractJWTSubject v d ≠ [])
    ∧ (∀ s : Bytes, parseJWTSubject s = [] → extractJWTSubject (some (.str s)) d = d)
    ∧ parseJWTSubject (ofStr "JWT h.eyJzdWIiOiIifQ.s") = []
    ∧ extractJWTSubject (some (.str (ofStr "JWT h.eyJzdWIiOiIifQ.s"))) d = d := by
  have hempty : parseJWTSubject (ofStr "JWT h.eyJzdWIiOiIifQ.s") = [] := by decide
  have hmain : extractJWTSubject v d = d
      ∨ (extractJWTSubject v d ≠ []
          ∧ ∃ (s q js : Bytes) (payload : jwtPayload),
              v = some (.str s)
              ∧ authorizationRegexp s = [s, q]
              ∧ stdDecodeString (base64URLReplacer (addBase64Padding q)) = some js
              ∧ jsonUnmarshal js = some payload
              ∧ extractJWTSubject v d = payload.Subject) := by
    match v with
    | none => exact Or.inl rfl
    | some (.int _ _) => exact Or.inl rfl
    | some (.time _ _) => exact Or.inl rfl
    | some (.duration _ _) => exact Or.inl rfl
    | some (.stringer _) => exact Or.inl rfl
    | some (.other _ _) => exact Or.inl rfl
    | some (.str s) =>
      by_cases hp : parseJWTSubject s = []
      · exact Or.inl (extractJWTSubject_of_parse_nil s d hp)
      · right
        have hx : extractJWTSubject (some (.str s)) d = parseJWTSubject s := by
          have hl : (parseJWTSubject s).length ≠ 0 := fun h => hp (List.length_eq_zero.mp h)
          simp [extractJWTSubject, hl]
        refine ⟨by rw [hx]; exact hp, ?_⟩
        rw [hx]
        have hreg : authorizationRegexp s = []
            ∨ ∃ q, authorizationRegexp s = [s, q] := by
          unfold authorizationRegexp
          split
          · split
            · exact Or.inl rfl
            · split
              · exact Or.inl rfl
              · split
                · exact Or.inr ⟨_, rfl⟩
                · exact Or.inl rfl
          · exact Or.inl rfl
        rcases hreg with h0 | ⟨q, hq⟩
        · exfalso
          apply hp
          unfold parseJWTSubject
          simp [h0]
        · unfold parseJWTSubject at hp ⊢
          simp only [hq, List.length_cons, List.length_nil, List.getD_cons_succ,
            List.getD_cons_zero] at hp ⊢
          cases hdec : stdDecodeString (base64URLReplacer (addBase64Padding q)) with
          | none => simp [hdec] at hp
          | some js =>
            cases hj : jsonUnmarshal js with
            | none => simp [hdec, hj] at hp
            | some payload =>
              refine ⟨s, q, js, payload, rfl, hq, hdec, hj, ?_⟩
              by_cases hz : (addBase64Padding q).length = 0
              · simp [hz] at hp
              · simp [hz, hj]
  refine ⟨hmain, ?_, fun s hs => extractJWTSubject_of_parse_nil s d hs, hempty,
    extractJWTSubject_of_parse_nil _ d hempty⟩
  intro hd
  rcases hmain with h | h
  · rw [h]
    exact hd
  · exact h.1

/-- Witness for C4: with the default `-`, a non-string value and a token without a
subject give `-`, and a token whose payload is `{"sub":"alice"}` gives `alice`. -/
theorem extractJWTSubject_total_witness :
    ofStr "-" ≠ []
    ∧ extractJWTSubject (some (.int .int 7)) (ofStr "-") ≠ []
    ∧ extractJWTSubject (some (.int .int 7)) (ofStr "-") = ofStr "-"
    ∧ extractJWTSubject (some (.str (ofStr "JWT h.eyJzdWIiOiIifQ.s"))) (ofStr "-") = ofStr "-"
    ∧ extractJWTSubject (some (.str (ofStr "JWT h.eyJzdWIiOiJhbGljZSJ9.s"))) (ofStr "-")
        = ofStr "alice" :=
  ⟨by decide,
   (extractJWTSubject_total (some (.int .int 7)) (ofStr "-")).2.1 (by decide),
   by decide, by decide, by decide⟩

/-- C5, as the code behaves: with a `time.Time` under `StartUTC` and a `time.Duration`
under `Duration`, `Format` panics when one of the seven fields rendered through
`toLog` holds a value whose `String` method panics, since `toLog` calls that method
itself and nothing recovers. When none of the seven does, then whatever else the fields
and the `Authorization` header hold, present or absent, `Format` returns a nil error and
the complete line: the fourteen operands in the layout of the format string, the four
fields printed directly as `fmt` prints them, the seven others as `toLog` renders
them; the line is not empty, its last byte is the newline and it ends with a space, the
elapsed milliseconds, `ms` and that newline. The elapsed milliseconds are a minus sign
for a negative quotient, then decimal digits that stand for its absolute value. The
example record formats to the line of the specification, and with the nil pointer
`(*time.Time)(nil)` as its client host to the same line with `<nil>` in that slot. -/
theorem FormatHeld_complete_line (r : Record) (start : Time) (stext : Bytes) (ns : Int)
    (dtext : Bytes) (hs : r.Data StartUTC = some (.sound (.time start stext)))
    (hd : r.Data Duration = some (.sound (.duration ns dtext))) :
    ((∃ k ∈ toLogKeys, isFaulty (r.Data k) = true) → FormatHeld r = .panic)
    ∧ ((∀ k ∈ toLogKeys, isFaulty (r.Data k) = false) →
      FormatHeld r = .ret
        (fmtS (r.entry.Data ClientHost) ++ ofStr " - "
          ++ extractJWTSubject (r.entry.Data "request_Authorization") (ofStr "-")
          ++ ofStr " [" ++ start.formatCommonLog ++ ofStr "] \""
          ++ fmtS (r.entry.Data RequestMethod) ++ ofStr " "
          ++ fmtS (r.entry.Data RequestPath) ++ ofStr " "
          ++ fmtS (r.entry.Data RequestProtocol) ++ ofStr "\" "
          ++ fmtV (some (toLog (r.entry.Data OriginStatus) (ofStr "-"))) ++ ofStr " "
          ++ fmtV (some (toLog (r.entry.Data OriginContentSize) (ofStr "-"))) ++ ofStr " "
          ++ fmtS (some (toLog (r.entry.Data "request_Referer") (ofStr "\"-\""))) ++ ofStr " "
          ++ fmtS (some (toLog (r.entry.Data "request_User-Agent") (ofStr "\"-\"")))
          ++ ofStr " "
          ++ fmtV (some (toLog (r.entry.Data RequestCount) (ofStr "-"))) ++ ofStr " "
          ++ fmtS (some (toLog (r.entry.Data FrontendName) (ofStr "-"))) ++ ofStr " "
          ++ fmtS (some (toLog (r.entry.Data BackendURL) (ofStr "-"))) ++ ofStr " "
          ++ decimal (Int.tdiv ns 1000000) ++ ofStr "ms\n", none)
      ∧ FormatHeld r = Format r.entry
      ∧ ∃ line : Bytes, FormatHeld r = .ret (line, none)
          ∧ line ≠ []
          ∧ line.getLast? = some 10
          ∧ (ofStr " " ++ decimal (Int.tdiv ns 1000000) ++ ofStr "ms\n") <:+ line)
    ∧ decimal (Int.tdiv ns 1000000)
        = (if Int.tdiv ns 1000000 < 0 then ofStr "-" else [])
          ++ decimalNat (Int.tdiv ns 1000000).natAbs
    ∧ digitsValue (decimalNat (Int.tdiv ns 1000000).natAbs) = (Int.tdiv ns 1000000).natAbs
    ∧ (∀ d ∈ decimalNat (Int.tdiv ns 1000000).natAbs, 48 ≤ d ∧ d ≤ 57)
    ∧ FormatHeld exampleRecord = .ret
        (ofStr ("10.0.0.1 - - [10/Jun/2024:13:45:02 +0000] \"GET /health HTTP/1.1\" 200 12 "
          ++ "\"-\" \"-\" - \"web\" \"http://10.0.0.2:80\" 250ms\n"), none)
    ∧ FormatHeld (exampleRecord.set ClientHost nilTimePointer) = .ret
        (ofStr ("<nil> - - [10/Jun/2024:13:45:02 +0000] \"GET /health HTTP/1.1\" 200 12 "
          ++ "\"-\" \"-\" - \"web\" \"http://10.0.0.2:80\" 250ms\n"), none) := by
  have e1 : FormatHeld exampleRecord = .ret
      (ofStr ("10.0.0.1 - - [10/Jun/2024:13:45:02 +0000] \"GET /health HTTP/1.1\" 200 12 "
        ++ "\"-\" \"-\" - \"web\" \"http://10.0.0.2:80\" 250ms\n"), none) := by decide
  have e2 : FormatHeld (exampleRecord.set ClientHost nilTimePointer) = .ret
      (ofStr ("<nil> - - [10/Jun/2024:13:45:02 +0000] \"GET /health HTTP/1.1\" 200 12 "
        ++ "\"-\" \"-\" - \"web\" \"http://10.0.0.2:80\" 250ms\n"), none) := by decide
  have e4 : decimal (Int.tdiv ns 1000000)
      = (if Int.tdiv ns 1000000 < 0 then ofStr "-" else [])
        ++ decimalNat (Int.tdiv ns 1000000).natAbs := by
    unfold decimal
    split_ifs <;> simp [ofStr_dash]
  have hse : r.entry.Data StartUTC = some (.time start stext) := by
    simp [Record.entry, Held.value, hs]
  have hde : r.entry.Data Duration = some (.duration ns dtext) := by
    simp [Record.entry, Held.value, hd]
  refine ⟨?_, ?_, e4, (decimalNat_value _).1, (decimalNat_value _).2, e1, e2⟩
  · rintro ⟨k, hm, hf⟩
    exact FormatHeld_panic r k hm hf
  · intro hk
    have hr := FormatHeld_ret r start stext ns dtext hs hd hk
    have hl : (operands r.entry start ns).line
        = (operands r.entry start ns).front ++ ofStr " "
          ++ decimal (Int.tdiv ns 1000000) ++ ofStr "ms\n" :=
      Operands.line_ending _
    refine ⟨?_, ?_, (operands r.entry start ns).line, hr, ?_, ?_, ?_⟩
    · rw [hr]
      simp [operands, Operands.line, fmtS, defaultValue, List.append_assoc]
    · rw [hr, Format_ret r.entry start stext ns dtext hse hde]
    · rw [hl, ofStr_ms_newline]
      simp
    · rw [hl, ofStr_ms_newline]
      simp
    · rw [hl]
      exact ⟨(operands r.entry start ns).front, by simp [List.append_assoc]⟩

/-- Witness for C5: a record that holds nothing but a start time and a duration of
-1,999,999 ns; every other field is absent. -/
theorem FormatHeld_complete_line_witness :
    FormatHeld bareRecord = .ret
      (ofStr ("%!s(<nil>) - - [10/Jun/2024:13:45:02 +0000] \"%!s(<nil>) %!s(<nil>) %!s(<nil>)\" "
        ++ "- - \"-\" \"-\" - - - -1ms\n"), none)
    ∧ FormatHeld bareRecord = Format bareRecord.entry
    ∧ ∃ line : Bytes, FormatHeld bareRecord = .ret (line, none)
        ∧ line ≠ []
        ∧ line.getLast? = some 10
        ∧ (ofStr " " ++ decimal (Int.tdiv (-1999999) 1000000) ++ ofStr "ms\n") <:+ line :=
  ⟨by decide,
   ((FormatHeld_complete_line bareRecord ⟨2024, 6, 10, 13, 45, 2, 0⟩
      (ofStr "2024-06-10 13:45:02 +0000 UTC") (-1999999) (ofStr "-1.999999ms")
      (by decide) (by decide)).2.1 (by decide)).2⟩

/-- Counterexample to C5: the example record with the nil pointer `(*time.Time)(nil)`
under `FrontendName` has a `time.Time` under `StartUTC` and a `time.Duration` under
`Duration`, yet `toLog` panics on the frontend name, calling its `String` method, and
so does `Format`: it returns no line. -/
theorem FormatHeld_nil_pointer_frontend :
    (exampleRecord.set FrontendName nilTimePointer).Data StartUTC
      = some (.sound (.time ⟨2024, 6, 10, 13, 45, 2, 0⟩ (ofStr "2024-06-10 13:45:02 +0000 UTC")))
    ∧ (exampleRecord.set FrontendName nilTimePointer).Data Duration
      = some (.sound (.duration 250000000 (ofStr "250ms")))
    ∧ toLogHeld ((exampleRecord.set FrontendName nilTimePointer).Data FrontendName) defaultValue
      = .panic
    ∧ FormatHeld (exampleRecord.set FrontendName nilTimePointer) = .panic
    ∧ ¬ ∃ (line : Bytes) (err : Option GoError),
        FormatHeld (exampleRecord.set FrontendName nilTimePointer) = .ret (line, err) := by
  have h : FormatHeld (exampleRecord.set FrontendName nilTimePointer) = .panic := by decide
  refine ⟨by decide, by decide, by decide, h, ?_⟩
  rintro ⟨line, err, he⟩
  rw [h] at he
  cases he

/-- C6, as the code behaves: `Format` panics, returning neither a line nor an error
value, exactly when `StartUTC` does not hold a `time.Time` or `Duration` does not hold
a `time.Duration`; whenever it returns, the error it returns is nil. -/
theorem Format_panics_iff (entry : Entry) :
    (Format entry = .panic ↔
      ¬ ((∃ (t : Time) (text : Bytes), entry.Data StartUTC = some (.time t text))
          ∧ ∃ (ns : Int) (text : Bytes), entry.Data Duration = some (.duration ns text)))
    ∧ ∀ (line : Bytes) (err : Option GoError), Format entry = .ret (line, err) → err = none := by
  by_cases hv : (∃ (t : Time) (text : Bytes), entry.Data StartUTC = some (.time t text))
      ∧ ∃ (ns : Int) (text : Bytes), entry.Data Duration = some (.duration ns text)
  · obtain ⟨⟨t, text, hs⟩, ⟨n, text2, hd⟩⟩ := hv
    have hf := Format_ret entry t text n text2 hs hd
    generalize (operands entry t n).line = l at hf
    rw [hf]
    refine ⟨⟨fun h => (by cases h), fun h => absurd ⟨⟨t, text, hs⟩, ⟨n, text2, hd⟩⟩ h⟩, ?_⟩
    intro line err h
    cases h
    rfl
  · rw [Format_panic entry hv]
    refine ⟨⟨fun _ => hv, fun _ => rfl⟩, ?_⟩
    intro line err h
    cases h

/-- Witness for C6 as amended: a record with a string under `Duration` panics; the
example record returns its line and a nil error. -/
theorem Format_panics_iff_witness :
    Format (exampleEntry.set Duration (.str (ofStr "250ms"))) = .panic
    ∧ Format exampleEntry = .ret
        (ofStr ("10.0.0.1 - - [10/Jun/2024:13:45:02 +0000] \"GET /health HTTP/1.1\" 200 12 "
          ++ "\"-\" \"-\" - \"web\" \"http://10.0.0.2:80\" 250ms\n"), none)
    ∧ (none : Option GoError) = none :=
  ⟨(Format_panics_iff (exampleEntry.set Duration (.str (ofStr "250ms")))).1.mpr
      (by
        rintro ⟨_, ns, text, h⟩
        simp [Entry.set] at h),
   by decide,
   (Format_panics_iff exampleEntry).2
      (ofStr ("10.0.0.1 - - [10/Jun/2024:13:45:02 +0000] \"GET /health HTTP/1.1\" 200 12 "
          ++ "\"-\" \"-\" - \"web\" \"http://10.0.0.2:80\" 250ms\n")) none (by decide)⟩

/-- Counterexample to C6: for the example record without `StartUTC`, `Format` does
not return an error value; the call panics. -/
theorem Format_missing_start_no_error :
    Format (exampleEntry.remove StartUTC) = .panic
    ∧ ¬ ∃ (line : Bytes) (err : GoError),
        Format (exampleEntry.remove StartUTC) = .ret (line, some err) := by
  have h : Format (exampleEntry.remove StartUTC) = .panic := by decide
  refine ⟨h, ?_⟩
  rintro ⟨line, err, he⟩
  rw [h] at he
  cases he

/-- C7. The elapsed field is the decimal text of the nanoseconds divided by 1,000,000
with truncation toward zero, followed by `ms`: a minus sign for a negative quotient,
then digits that stand for its absolute value; the quotient `q` lies within one
millisecond of the duration on the side of zero; 1,999,999 ns gives `1ms`, 999,999 ns
`0ms` and -1,999,999 ns `-1ms`. -/
theorem Format_elapsed_truncates (entry : Entry) (start : Time) (stext : Bytes) (ns : Int)
    (dtext : Bytes) (hs : entry.Data StartUTC = some (.time start stext))
    (hd : entry.Data Duration = some (.duration ns dtext)) :
    (∃ pre : Bytes, Format entry
        = .ret (pre ++ ofStr " " ++ decimal (Int.tdiv ns 1000000) ++ ofStr "ms\n", none))
    ∧ (operands entry start ns).elapsed = decimal (Int.tdiv ns 1000000)
    ∧ decimal (Int.tdiv ns 1000000)
        = (if Int.tdiv ns 1000000 < 0 then ofStr "-" else [])
          ++ decimalNat (Int.tdiv ns 1000000).natAbs
    ∧ digitsValue (decimalNat (Int.tdiv ns 1000000).natAbs) = (Int.tdiv ns 1000000).natAbs
    ∧ (0 ≤ ns → Int.tdiv ns 1000000 * 1000000 ≤ ns
        ∧ ns < (Int.tdiv ns 1000000 + 1) * 1000000)
    ∧ (ns ≤ 0 → ns ≤ Int.tdiv ns 1000000 * 1000000
        ∧ (Int.tdiv ns 1000000 - 1) * 1000000 < ns)
    ∧ (operands entry start 1999999).elapsed ++ ofStr "ms" = ofStr "1ms"
    ∧ (operands entry start 999999).elapsed ++ ofStr "ms" = ofStr "0ms"
    ∧ (operands entry start (-1999999)).elapsed ++ ofStr "ms" = ofStr "-1ms" := by
  have e1 : decimal (Int.tdiv 1999999 1000000) ++ ofStr "ms" = ofStr "1ms" := by decide
  have e2 : decimal (Int.tdiv 999999 1000000) ++ ofStr "ms" = ofStr "0ms" := by decide
  have e3 : decimal (Int.tdiv (-1999999) 1000000) ++ ofStr "ms" = ofStr "-1ms" := by decide
  have e4 : decimal (Int.tdiv ns 1000000)
      = (if Int.tdiv ns 1000000 < 0 then ofStr "-" else [])
        ++ decimalNat (Int.tdiv ns 1000000).natAbs := by
    unfold decimal
    split_ifs <;> simp [ofStr_dash]
  refine ⟨⟨(operands entry start ns).front, ?_⟩, rfl, e4, (decimalNat_value _).1, ?_, ?_,
    e1, e2, e3⟩
  · rw [Format_ret entry start stext ns dtext hs hd, Operands.line_ending]
    rfl
  · intro h
    have h1 := Int.tmod_add_tdiv ns 1000000
    have h2 := Int.tmod_nonneg (1000000 : Int) h
    have h3 := Int.tmod_lt_of_pos ns (by decide : (0 : Int) < 1000000)
    omega
  · intro h
    have h1 := Int.tmod_add_tdiv ns 1000000
    have h2 := Int.tmod_add_tdiv (-ns) 1000000
    have h3 := Int.tmod_nonneg (1000000 : Int) (by omega : 0 ≤ -ns)
    have h4 := Int.tmod_lt_of_pos (-ns) (by decide : (0 : Int) < 1000000)
    rw [Int.neg_tdiv] at h2
    omega

/-- Witness for C7: the example record with a duration of -1,999,999 ns. -/
theorem Format_elapsed_truncates_witness :
    Format (exampleEntry.set Duration (.duration (-1999999) []))
      = .ret (ofStr ("10.0.0.1 - - [10/Jun/2024:13:45:02 +0000] \"GET /health HTTP/1.1\" 200 12 "
          ++ "\"-\" \"-\" - \"web\" \"http://10.0.0.2:80\" -1ms\n"), none)
    ∧ ∃ pre : Bytes, Format (exampleEntry.set Duration (.duration (-1999999) []))
        = .ret (pre ++ ofStr " " ++ decimal (Int.tdiv (-1999999) 1000000) ++ ofStr "ms\n", none) :=
  ⟨by decide,
   (Format_elapsed_truncates (exampleEntry.set Duration (.duration (-1999999) []))
      ⟨2024, 6, 10, 13, 45, 2, 0⟩ (ofStr "2024-06-10 13:45:02 +0000 UTC") (-1999999) []
      (by decide) (by decide)).1⟩

/-- C8. Value rendering rule: `toLog v d` renders as `d` when `v` is absent and when
`v` is the empty string, as the string between one pair of double quotes, contents
unchanged, when `v` is a non-empty string, and as the plain decimal text, unquoted,
when `v` is an integer; so an empty referer renders in `Format` as its default token
and not as two double quotes. -/
theorem toLog_rendering (d : Bytes) :
    (fmtS (some (toLog none d)) = d ∧ fmtV (some (toLog none d)) = d)
    ∧ (fmtS (some (toLog (some (.str [])) d)) = d
        ∧ fmtV (some (toLog (some (.str [])) d)) = d)
    ∧ (∀ s : Bytes, s ≠ [] →
        fmtS (some (toLog (some (.str s)) d)) = ofStr "\"" ++ s ++ ofStr "\""
        ∧ fmtV (some (toLog (some (.str s)) d)) = ofStr "\"" ++ s ++ ofStr "\"")
    ∧ (∀ (k : IntKind) (n : Int),
        toLog (some (.int k n)) d = .int k n
        ∧ fmtV (some (toLog (some (.int k n)) d)) = decimal n)
    ∧ (∀ (entry : Entry) (start : Time) (ns : Int),
        entry.Data "request_Referer" = some (.str []) →
        (operands entry start ns).referer = ofStr "\"-\""
        ∧ (operands entry start ns).referer ≠ ofStr "\"\"") := by
  refine ⟨⟨rfl, rfl⟩, ⟨by simp [toLog, quoted, fmtS], by simp [toLog, quoted, fmtV]⟩, ?_, ?_, ?_⟩
  · intro s hs
    have hl : s.length ≠ 0 := fun h => hs (List.length_eq_zero.mp h)
    simp [toLog, quoted, fmtS, fmtV, hl]
  · intro k n
    exact ⟨rfl, rfl⟩
  · intro entry start ns h
    have hr : (operands entry start ns).referer = ofStr "\"-\"" := by
      simp [operands, h, toLog, quoted, fmtS]
    rw [hr]
    exact ⟨rfl, by decide⟩

/-- Witness for C8: a non-empty referer, the status 200, and the example record with
an empty referer. -/
theorem toLog_rendering_witness :
    ofStr "curl" ≠ []
    ∧ fmtS (some (toLog (some (.str (ofStr "curl"))) (ofStr "\"-\""))) = ofStr "\"curl\""
    ∧ fmtV (some (toLog (some (.int .int 200)) (ofStr "-"))) = ofStr "200"
    ∧ (operands (exampleEntry.set "request_Referer" (.str [])) ⟨2024, 6, 10, 13, 45, 2, 0⟩
        250000000).referer = ofStr "\"-\"" :=
  ⟨by decide,
   ((toLog_rendering (ofStr "\"-\"")).2.2.1 (ofStr "curl") (by decide)).1,
   by decide,
   ((toLog_rendering []).2.2.2.2 (exampleEntry.set "request_Referer" (.str []))
      ⟨2024, 6, 10, 13, 45, 2, 0⟩ 250000000 (by decide)).1⟩

/-- C9. A header that does not start with the exact four bytes `JWT ` yields the
default, whatever follows the scheme. -/
theorem extractJWTSubject_other_scheme (s d : Bytes) (h : ¬ (ofStr "JWT " <+: s)) :
    extractJWTSubject (some (.str s)) d = d := by
  apply extractJWTSubject_of_parse_nil
  unfold parseJWTSubject
  simp [authorizationRegexp_other_scheme s h]

/-- Witness for C9: a `Bearer` header carrying a well-formed token whose payload is
`{"sub":"alice"}`; the lower-case scheme, the scheme without its space and the empty
header give the default as well. -/
theorem extractJWTSubject_other_scheme_witness :
    ¬ (ofStr "JWT " <+: ofStr "Bearer h.eyJzdWIiOiJhbGljZSJ9.s")
    ∧ extractJWTSubject (some (.str (ofStr "Bearer h.eyJzdWIiOiJhbGljZSJ9.s"))) (ofStr "-")
        = ofStr "-"
    ∧ extractJWTSubject (some (.str (ofStr "jwt h.eyJzdWIiOiJhbGljZSJ9.s"))) (ofStr "-")
        = ofStr "-"
    ∧ extractJWTSubject (some (.str (ofStr "JWTh.eyJzdWIiOiJhbGljZSJ9.s"))) (ofStr "-")
        = ofStr "-"
    ∧ extractJWTSubject (some (.str (ofStr ""))) (ofStr "-") = ofStr "-" :=
  ⟨by decide,
   extractJWTSubject_other_scheme _ _ (by decide),
   by decide, by decide, by decide⟩

/-- C10. A header `JWT h.p.s` whose payload segment has a length of remainder 1
modulo 4 yields the default: for segments without full stops, and for any header in
terms of the group captured by the pattern. -/
theorem extractJWTSubject_unpaddable (h p g d : Bytes)
    (hh : ∀ x ∈ h, x ≠ 46) (hp : ∀ x ∈ p, x ≠ 46) (hg : ∀ x ∈ g, x ≠ 46)
    (hlen : p.length % 4 = 1) :
    extractJWTSubject (some (.str (ofStr "JWT " ++ h ++ ofStr "." ++ p ++ ofStr "." ++ g))) d
      = d
    ∧ ∀ s : Bytes, ((authorizationRegexp s).getD 1 []).length % 4 = 1 →
        extractJWTSubject (some (.str s)) d = d := by
  constructor
  · apply extractJWTSubject_of_parse_nil
    have h1 : ∀ x ∈ h, notDot x = true := fun x hx => by simpa [notDot] using hh x hx
    have h2 : ∀ x ∈ p, notDot x = true := fun x hx => by simpa [notDot] using hp x hx
    have h3 : ∀ x ∈ g, notDot x = true := fun x hx => by simpa [notDot] using hg x hx
    unfold parseJWTSubject
    rw [authorizationRegexp_segments h p g h1 h2 h3]
    by_cases hc : h ≠ [] ∧ p ≠ [] ∧ g ≠ []
    · rw [if_pos hc]
      simp [addBase64Padding_rem1 p hlen]
    · rw [if_neg hc]
      simp
  · intro s hs
    exact extractJWTSubject_of_parse_nil s d (parseJWTSubject_group_rem1 s hs)

/-- Witness for C10: a five-character payload. -/
theorem extractJWTSubject_unpaddable_witness :
    (ofStr "eyJzd").length % 4 = 1
    ∧ extractJWTSubject (some (.str (ofStr "JWT " ++ ofStr "h" ++ ofStr "." ++ ofStr "eyJzd"
        ++ ofStr "." ++ ofStr "s"))) (ofStr "-") = ofStr "-" :=
  ⟨by decide,
   (extractJWTSubject_unpaddable (ofStr "h") (ofStr "eyJzd") (ofStr "s") (ofStr "-")
      (by decide) (by decide) (by decide) (by decide)).1⟩

/-- C11. A header `JWT h.p.s` whose payload base64-decodes to bytes that are not
valid JSON, or to a JSON object with a `sub` member that is a number, an object, an
array or a boolean, yields the default: `json.Unmarshal` returns an error and
`parseJWTSubject` the empty string, whatever else the object holds. -/
theorem extractJWTSubject_bad_json (h p g d js : Bytes)
    (hh : ∀ x ∈ h, x ≠ 46) (hp : ∀ x ∈ p, x ≠ 46) (hg : ∀ x ∈ g, x ≠ 46)
    (hdec : stdDecodeString (base64URLReplacer (addBase64Padding p)) = some js)
    (hbad : parseDoc js = none
      ∨ ∃ (ms : List (Bytes × Lit)) (v : Lit), parseDoc js = some (Doc.object ms)
          ∧ (ofStr "sub", v) ∈ ms
          ∧ (v = Lit.bool ∨ v = Lit.number ∨ v = Lit.array ∨ v = Lit.object)) :
    jsonUnmarshal js = none
    ∧ parseJWTSubject (ofStr "JWT " ++ h ++ ofStr "." ++ p ++ ofStr "." ++ g) = []
    ∧ extractJWTSubject
        (some (.str (ofStr "JWT " ++ h ++ ofStr "." ++ p ++ ofStr "." ++ g))) d = d := by
  have hj : jsonUnmarshal js = none := by
    unfold jsonUnmarshal
    rcases hbad with h0 | ⟨ms, v, hdoc, hmem, hv⟩
    · rw [h0]
    · rw [hdoc]
      have := decodeMembers_type_error ms ([], false) (ofStr "sub") v hmem (by decide) hv
      simp only [this, if_true]
  have hpar := parseJWTSubject_of_payload_nil h p g hh hp hg
    (subjectOfPayload_of_unmarshal_none p js hdec hj)
  exact ⟨hj, hpar, extractJWTSubject_of_parse_nil _ d hpar⟩

/-- Witness for C11: the payload `eyJzdWIiOjV9`, which decodes to `{"sub":5}`; the
payloads of `hello`, `{"sub":true}`, `{"sub":[]}` and `{"sub":{}}` give the default as
well. -/
theorem extractJWTSubject_bad_json_witness :
    stdDecodeString (base64URLReplacer (addBase64Padding (ofStr "eyJzdWIiOjV9")))
      = some (ofStr "\x7b\"sub\":5\x7d")
    ∧ parseDoc (ofStr "\x7b\"sub\":5\x7d") = some (Doc.object [(ofStr "sub", Lit.number)])
    ∧ extractJWTSubject (some (.str (ofStr "JWT " ++ ofStr "h" ++ ofStr "."
        ++ ofStr "eyJzdWIiOjV9" ++ ofStr "." ++ ofStr "s"))) (ofStr "-") = ofStr "-"
    ∧ extractJWTSubject (some (.str (ofStr "JWT h.aGVsbG8.s"))) (ofStr "-") = ofStr "-"
    ∧ extractJWTSubject (some (.str (ofStr "JWT h.eyJzdWIiOnRydWV9.s"))) (ofStr "-") = ofStr "-"
    ∧ extractJWTSubject (some (.str (ofStr "JWT h.eyJzdWIiOltdfQ.s"))) (ofStr "-") = ofStr "-"
    ∧ extractJWTSubject (some (.str (ofStr "JWT h.eyJzdWIiOnt9fQ.s"))) (ofStr "-") = ofStr "-" :=
  ⟨by decide, by decide,
   (extractJWTSubject_bad_json (ofStr "h") (ofStr "eyJzdWIiOjV9") (ofStr "s") (ofStr "-")
      (ofStr "\x7b\"sub\":5\x7d") (by decide) (by decide) (by decide) (by decide)
      (Or.inr ⟨[(ofStr "sub", Lit.number)], Lit.number, by decide, by decide,
        Or.inr (Or.inl rfl)⟩)).2.2,
   by decide, by decide, by decide, by decide⟩

/-- C12, as the code behaves: a header `JWT h.p.s` whose payload decodes to a JSON
object none of whose keys selects the field `sub` yields the default, where a key
selects the field when it equals `sub` up to the case of its letters (`Sub` and `SUB`
do, `name` does not). -/
theorem extractJWTSubject_no_sub_member (h p g d js : Bytes) (ms : List (Bytes × Lit))
    (hh : ∀ x ∈ h, x ≠ 46) (hp : ∀ x ∈ p, x ≠ 46) (hg : ∀ x ∈ g, x ≠ 46)
    (hdec : stdDecodeString (base64URLReplacer (addBase64Padding p)) = some js)
    (hdoc : parseDoc js = some (Doc.object ms))
    (hno : ∀ kv ∈ ms, matchesSub kv.1 = false) :
    extractJWTSubject
        (some (.str (ofStr "JWT " ++ h ++ ofStr "." ++ p ++ ofStr "." ++ g))) d = d
    ∧ matchesSub (ofStr "name") = false
    ∧ matchesSub (ofStr "sub") = true
    ∧ matchesSub (ofStr "Sub") = true
    ∧ matchesSub (ofStr "SUB") = true := by
  refine ⟨?_, by decide, by decide, by decide, by decide⟩
  have hj : jsonUnmarshal js = some ⟨[]⟩ := by
    unfold jsonUnmarshal
    rw [hdoc]
    simp only [decodeMembers_no_match ms ([], false) hno]
    rfl
  exact extractJWTSubject_of_parse_nil _ d (parseJWTSubject_of_payload_nil h p g hh hp hg
    (subjectOfPayload_of_unmarshal p js ⟨[]⟩ hdec hj rfl))

/-- Witness for C12 as amended: the payload `eyJuYW1lIjoiYWxpY2UifQ`, which decodes to
`{"name":"alice"}`. -/
theorem extractJWTSubject_no_sub_member_witness :
    stdDecodeString (base64URLReplacer (addBase64Padding (ofStr "eyJuYW1lIjoiYWxpY2UifQ")))
      = some (ofStr "\x7b\"name\":\"alice\"\x7d")
    ∧ extractJWTSubject (some (.str (ofStr "JWT " ++ ofStr "h" ++ ofStr "."
        ++ ofStr "eyJuYW1lIjoiYWxpY2UifQ" ++ ofStr "." ++ ofStr "s"))) (ofStr "-") = ofStr "-" :=
  ⟨by decide,
   (extractJWTSubject_no_sub_member (ofStr "h") (ofStr "eyJuYW1lIjoiYWxpY2UifQ") (ofStr "s")
      (ofStr "-") (ofStr "\x7b\"name\":\"alice\"\x7d")
      [(ofStr "name", Lit.str (ofStr "alice"))]
      (by decide) (by decide) (by decide) (by decide) (by decide) (by decide)).1⟩

/-- Counterexample to C12: the payload `eyJTdWIiOiJhbGljZSJ9` decodes to the JSON
object `{"Sub":"alice"}`, which has no member whose key is exactly `sub`, and the
extractor returns `alice`, not the default; so it does for `{"SUB":"alice"}`. -/
theorem extractJWTSubject_capitalised_key :
    stdDecodeString (base64URLReplacer (addBase64Padding (ofStr "eyJTdWIiOiJhbGljZSJ9")))
      = some (ofStr "\x7b\"Sub\":\"alice\"\x7d")
    ∧ parseDoc (ofStr "\x7b\"Sub\":\"alice\"\x7d")
        = some (Doc.object [(ofStr "Sub", Lit.str (ofStr "alice"))])
    ∧ ofStr "Sub" ≠ ofStr "sub"
    ∧ extractJWTSubject (some (.str (ofStr "JWT h.eyJTdWIiOiJhbGljZSJ9.s"))) (ofStr "-")
        = ofStr "alice"
    ∧ extractJWTSubject (some (.str (ofStr "JWT h.eyJTdWIiOiJhbGljZSJ9.s"))) (ofStr "-")
        ≠ ofStr "-"
    ∧ extractJWTSubject (some (.str (ofStr "JWT h.eyJTVUIiOiJhbGljZSJ9.s"))) (ofStr "-")
        = ofStr "alice" := by
  decide

/-- C13, as the code behaves: for a timestamp with a year of at most four digits and
a zone offset of less than 100 hours either way, the timestamp is the 26 bytes
`DD/Mon/YYYY:HH:MM:SS ±hhmm`: zero-padded day, three-letter English month name, year,
zero-padded hour, minute and second, a space, a sign and the zone offset in hours and
minutes, `+0000` for the offset zero; 2024-06-10 13:45:02 UTC gives
`10/Jun/2024:13:45:02 +0000`, and the line holds the timestamp between square
brackets. -/
theorem formatCommonLog_shape (t : Time)
    (hy0 : 0 ≤ t.year) (hy : t.year ≤ 9999) (hm1 : 1 ≤ t.month) (hm : t.month ≤ 12)
    (hd1 : 1 ≤ t.day) (hd : t.day ≤ 31) (hh : t.hour ≤ 23) (hmi : t.minute ≤ 59)
    (hs : t.second ≤ 59) (ho1 : -360000 < t.offset) (ho2 : t.offset < 360000) :
    t.formatCommonLog
      = [48 + t.day / 10, 48 + t.day % 10, 47]
        ++ ofStr (shortMonthNames.getD (t.month - 1) "")
        ++ [47, 48 + t.year.toNat / 1000, 48 + t.year.toNat / 100 % 10,
            48 + t.year.toNat / 10 % 10, 48 + t.year.toNat % 10,
            58, 48 + t.hour / 10, 48 + t.hour % 10,
            58, 48 + t.minute / 10, 48 + t.minute % 10,
            58, 48 + t.second / 10, 48 + t.second % 10,
            32, if Int.tdiv t.offset 60 < 0 then 45 else 43,
            48 + (Int.tdiv t.offset 60).natAbs / 60 / 10,
            48 + (Int.tdiv t.offset 60).natAbs / 60 % 10,
            48 + (Int.tdiv t.offset 60).natAbs % 60 / 10,
            48 + (Int.tdiv t.offset 60).natAbs % 60 % 10]
    ∧ t.formatCommonLog.length = 26
    ∧ (ofStr (shortMonthNames.getD (t.month - 1) "")).length = 3
    ∧ (t.offset = 0 → t.formatCommonLog.drop 21 = ofStr "+0000")
    ∧ Time.formatCommonLog ⟨2024, 6, 10, 13, 45, 2, 0⟩ = ofStr "10/Jun/2024:13:45:02 +0000"
    ∧ ∀ (entry : Entry) (stext : Bytes) (ns : Int) (dtext : Bytes),
        entry.Data StartUTC = some (.time t stext) →
        entry.Data Duration = some (.duration ns dtext) →
        ∃ pre post : Bytes, Format entry
          = .ret (pre ++ ofStr "[" ++ t.formatCommonLog ++ ofStr "]" ++ post, none) := by
  have hz := zone_minutes_lt t.offset ho1 ho2
  have hmon := shortMonthNames_length (t.month - 1) (by omega)
  have eyear : t.year = ((t.year.toNat : Nat) : Int) := by omega
  have ez1 : (((Int.tdiv t.offset 60).natAbs : Int) / 60)
      = (((Int.tdiv t.offset 60).natAbs / 60 : Nat) : Int) := by omega
  have ez2 : (((Int.tdiv t.offset 60).natAbs : Int) % 60)
      = (((Int.tdiv t.offset 60).natAbs % 60 : Nat) : Int) := by omega
  have hshape : t.formatCommonLog
      = [48 + t.day / 10, 48 + t.day % 10, 47]
        ++ ofStr (shortMonthNames.getD (t.month - 1) "")
        ++ [47, 48 + t.year.toNat / 1000, 48 + t.year.toNat / 100 % 10,
            48 + t.year.toNat / 10 % 10, 48 + t.year.toNat % 10,
            58, 48 + t.hour / 10, 48 + t.hour % 10,
            58, 48 + t.minute / 10, 48 + t.minute % 10,
            58, 48 + t.second / 10, 48 + t.second % 10,
            32, if Int.tdiv t.offset 60 < 0 then 45 else 43,
            48 + (Int.tdiv t.offset 60).natAbs / 60 / 10,
            48 + (Int.tdiv t.offset 60).natAbs / 60 % 10,
            48 + (Int.tdiv t.offset 60).natAbs % 60 / 10,
            48 + (Int.tdiv t.offset 60).natAbs % 60 % 10] := by
    unfold Time.formatCommonLog
    rw [appendInt_two t.day (by omega), appendInt_two t.hour (by omega),
      appendInt_two t.minute (by omega), appendInt_two t.second (by omega), eyear,
      appendInt_four t.year.toNat (by omega), ez1, ez2,
      appendInt_two ((Int.tdiv t.offset 60).natAbs / 60) (by omega),
      appendInt_two ((Int.tdiv t.offset 60).natAbs % 60) (by omega)]
    simp only [Int.toNat_ofNat]
    split_ifs <;> simp [ofStr, encodeRune]
  refine ⟨hshape, ?_, hmon, ?_, by decide, ?_⟩
  · rw [hshape]
    simp only [List.length_append, List.length_cons, List.length_nil, hmon]
  · intro h0
    rw [hshape]
    have hd3 : ∀ (a b : Bytes), a.length = 3 → ([48 + t.day / 10, 48 + t.day % 10, 47] ++ a ++ b).drop 21
        = b.drop 15 := by
      intro a b ha
      match a, ha with
      | [x, y, z], _ => rfl
    rw [hd3 _ _ hmon, h0]
    simp only [List.drop_succ_cons, List.drop_zero]
    decide
  · intro entry stext ns dtext h1 h2
    refine ⟨(operands entry t ns).clientHost ++ ofStr " - " ++ (operands entry t ns).subject
      ++ ofStr " ", ofStr " \"" ++ (operands entry t ns).method ++ ofStr " "
      ++ (operands entry t ns).path ++ ofStr " " ++ (operands entry t ns).protocol ++ ofStr "\" "
      ++ (operands entry t ns).status ++ ofStr " " ++ (operands entry t ns).size ++ ofStr " "
      ++ (operands entry t ns).referer ++ ofStr " " ++ (operands entry t ns).userAgent
      ++ ofStr " " ++ (operands entry t ns).count ++ ofStr " " ++ (operands entry t ns).frontend
      ++ ofStr " " ++ (operands entry t ns).backend ++ ofStr " " ++ (operands entry t ns).elapsed
      ++ ofStr "ms\n", ?_⟩
    rw [Format_ret entry t stext ns dtext h1 h2]
    have e : (operands entry t ns).timestamp = t.formatCommonLog := rfl
    simp only [Operands.line, e]
    simp [ofStr, encodeRune]

/-- Witness for C13 as amended: 2024-06-10 13:45:02 UTC, and a time in a zone five and
a half hours west of UTC. -/
theorem formatCommonLog_shape_witness :
    (Time.formatCommonLog ⟨2024, 6, 10, 13, 45, 2, 0⟩).length = 26
    ∧ Time.formatCommonLog ⟨2024, 6, 10, 13, 45, 2, 0⟩ = ofStr "10/Jun/2024:13:45:02 +0000"
    ∧ Time.formatCommonLog ⟨987, 1, 2, 3, 4, 5, -19800⟩ = ofStr "02/Jan/0987:03:04:05 -0530"
    ∧ Format exampleEntry = .ret
        (ofStr ("10.0.0.1 - - [10/Jun/2024:13:45:02 +0000] \"GET /health HTTP/1.1\" 200 12 "
          ++ "\"-\" \"-\" - \"web\" \"http://10.0.0.2:80\" 250ms\n"), none) :=
  ⟨(formatCommonLog_shape ⟨2024, 6, 10, 13, 45, 2, 0⟩ (by decide) (by decide) (by decide)
      (by decide) (by decide) (by decide) (by decide) (by decide) (by decide) (by decide)
      (by decide)).2.1,
   by decide, by decide, by decide⟩

/-- Counterexample to C13: a timestamp with the year 2024 in a fixed zone 100 hours
east of UTC is printed with a five-digit offset, in 27 bytes. -/
theorem formatCommonLog_wide_zone :
    Time.formatCommonLog ⟨2024, 6, 10, 13, 45, 2, 360000⟩ = ofStr "10/Jun/2024:13:45:02 +10000"
    ∧ (Time.formatCommonLog ⟨2024, 6, 10, 13, 45, 2, 360000⟩).length = 27
    ∧ (Time.formatCommonLog ⟨2024, 6, 10, 13, 45, 2, 360000⟩).length ≠ 26 := by
  decide

/-- C14, as the code behaves: for a structurally valid record the output ends with a
newline, and it holds one newline more than the printed fields hold together (the
client host, the subject, the method, the path, the protocol, the status, the size, the
referer, the user agent, the request count, the frontend and the backend; the timestamp
and the elapsed time hold none). It is a single line exactly when none of these fields
holds a newline. -/
theorem Format_newlines (entry : Entry) (start : Time) (stext : Bytes) (ns : Int)
    (dtext : Bytes) (hs : entry.Data StartUTC = some (.time start stext))
    (hd : entry.Data Duration = some (.duration ns dtext)) :
    ∃ line : Bytes, Format entry = .ret (line, none)
      ∧ line.getLast? = some 10
      ∧ line.count 10 = 1 + ((operands entry start ns).clientHost.count 10
          + (operands entry start ns).subject.count 10
          + (operands entry start ns).method.count 10
          + (operands entry start ns).path.count 10
          + (operands entry start ns).protocol.count 10
          + (operands entry start ns).status.count 10
          + (operands entry start ns).size.count 10
          + (operands entry start ns).referer.count 10
          + (operands entry start ns).userAgent.count 10
          + (operands entry start ns).count.count 10
          + (operands entry start ns).frontend.count 10
          + (operands entry start ns).backend.count 10)
      ∧ (line.count 10 = 1 ↔
          (operands entry start ns).clientHost.count 10 = 0
          ∧ (operands entry start ns).subject.count 10 = 0
          ∧ (operands entry start ns).method.count 10 = 0
          ∧ (operands entry start ns).path.count 10 = 0
          ∧ (operands entry start ns).protocol.count 10 = 0
          ∧ (operands entry start ns).status.count 10 = 0
          ∧ (operands entry start ns).size.count 10 = 0
          ∧ (operands entry start ns).referer.count 10 = 0
          ∧ (operands entry start ns).userAgent.count 10 = 0
          ∧ (operands entry start ns).count.count 10 = 0
          ∧ (operands entry start ns).frontend.count 10 = 0
          ∧ (operands entry start ns).backend.count 10 = 0) := by
  have ht : (operands entry start ns).timestamp.count 10 = 0 :=
    formatCommonLog_count_newline start
  have he : (operands entry start ns).elapsed.count 10 = 0 :=
    decimal_count_newline _
  have hc : (operands entry start ns).line.count 10
      = 1 + ((operands entry start ns).clientHost.count 10
          + (operands entry start ns).subject.count 10
          + (operands entry start ns).method.count 10
          + (operands entry start ns).path.count 10
          + (operands entry start ns).protocol.count 10
          + (operands entry start ns).status.count 10
          + (operands entry start ns).size.count 10
          + (operands entry start ns).referer.count 10
          + (operands entry start ns).userAgent.count 10
          + (operands entry start ns).count.count 10
          + (operands entry start ns).frontend.count 10
          + (operands entry start ns).backend.count 10) := by
    have l1 : (ofStr " - ").count 10 = 0 := by decide
    have l2 : (ofStr " [").count 10 = 0 := by decide
    have l3 : (ofStr "] \"").count 10 = 0 := by decide
    have l4 : (ofStr " ").count 10 = 0 := by decide
    have l5 : (ofStr "\" ").count 10 = 0 := by decide
    have l6 : (ofStr "ms\n").count 10 = 1 := by decide
    simp only [Operands.line, List.count_append, l1, l2, l3, l4, l5, l6, ht, he]
    omega
  refine ⟨(operands entry start ns).line, Format_ret entry start stext ns dtext hs hd, ?_, hc, ?_⟩
  · rw [Operands.line_ending, ofStr_ms_newline]
    simp
  · rw [hc]
    omega

/-- Witness for C14 as amended: the example record, whose fields hold no newline. -/
theorem Format_newlines_witness :
    ∃ line : Bytes, Format exampleEntry = .ret (line, none)
      ∧ line.getLast? = some 10
      ∧ line.count 10 = 1 :=
  (Format_newlines exampleEntry ⟨2024, 6, 10, 13, 45, 2, 0⟩
      (ofStr "2024-06-10 13:45:02 +0000 UTC") 250000000 (ofStr "250ms")
      (by decide) (by decide)).elim
    (fun line h => ⟨line, h.1, h.2.1, h.2.2.2.mpr (by decide)⟩)

/-- Counterexample to C14: the example record with an `Authorization` header whose
payload `eyJzdWIiOiJhXG5iIn0` is the JSON text `{"sub":"a\nb"}`; the subject holds a
newline, and the output holds two. -/
theorem Format_subject_newline :
    Format (exampleEntry.set "request_Authorization"
        (.str (ofStr "JWT h.eyJzdWIiOiJhXG5iIn0.s"))) = .ret
      (ofStr ("10.0.0.1 - a\nb [10/Jun/2024:13:45:02 +0000] \"GET /health HTTP/1.1\" 200 12 "
        ++ "\"-\" \"-\" - \"web\" \"http://10.0.0.2:80\" 250ms\n"), none)
    ∧ (ofStr ("10.0.0.1 - a\nb [10/Jun/2024:13:45:02 +0000] \"GET /health HTTP/1.1\" 200 12 "
        ++ "\"-\" \"-\" - \"web\" \"http://10.0.0.2:80\" 250ms\n")).count 10 = 2
    ∧ stdDecodeString (base64URLReplacer (addBase64Padding (ofStr "eyJzdWIiOiJhXG5iIn0")))
        = some (ofStr "\x7b\"sub\":\"a\\nb\"\x7d") := by
  decide

/-- C15, the code at the failing input: for the example record without `ClientHost`
`Format` returns a line whose first field is the text `fmt` prints for a nil operand
under `%s`, not `-`; so it does for a missing method, path and protocol. -/
theorem Format_absent_client_host :
    Format (exampleEntry.remove ClientHost) = .ret
      (ofStr ("%!s(<nil>) - - [10/Jun/2024:13:45:02 +0000] \"GET /health HTTP/1.1\" 200 12 "
        ++ "\"-\" \"-\" - \"web\" \"http://10.0.0.2:80\" 250ms\n"), none)
    ∧ Format (((exampleEntry.remove RequestMethod).remove RequestPath).remove RequestProtocol)
      = .ret
      (ofStr ("10.0.0.1 - - [10/Jun/2024:13:45:02 +0000] \"%!s(<nil>) %!s(<nil>) %!s(<nil>)\" "
        ++ "200 12 \"-\" \"-\" - \"web\" \"http://10.0.0.2:80\" 250ms\n"), none)
    ∧ Format (exampleEntry.remove OriginStatus) = .ret
      (ofStr ("10.0.0.1 - - [10/Jun/2024:13:45:02 +0000] \"GET /health HTTP/1.1\" - 12 "
        ++ "\"-\" \"-\" - \"web\" \"http://10.0.0.2:80\" 250ms\n"), none) := by
  decide

/-- C16, as the code behaves: an absent or empty status, size, request count,
frontend or backend renders as `-`, an absent or empty referer or user agent as `"-"`,
and the subject of an absent or empty `Authorization` header as `-`. -/
theorem operands_defaults (entry : Entry) (start : Time) (ns : Int) :
    ((entry.Data OriginStatus = none ∨ entry.Data OriginStatus = some (.str [])) →
      (operands entry start ns).status = ofStr "-")
    ∧ ((entry.Data OriginContentSize = none ∨ entry.Data OriginContentSize = some (.str [])) →
      (operands entry start ns).size = ofStr "-")
    ∧ ((entry.Data RequestCount = none ∨ entry.Data RequestCount = some (.str [])) →
      (operands entry start ns).count = ofStr "-")
    ∧ ((entry.Data "request_Authorization" = none
        ∨ entry.Data "request_Authorization" = some (.str [])) →
      (operands entry start ns).subject = ofStr "-")
    ∧ ((entry.Data "request_Referer" = none ∨ entry.Data "request_Referer" = some (.str [])) →
      (operands entry start ns).referer = ofStr "\"-\"")
    ∧ ((entry.Data "request_User-Agent" = none
        ∨ entry.Data "request_User-Agent" = some (.str [])) →
      (operands entry start ns).userAgent = ofStr "\"-\"")
    ∧ ((entry.Data FrontendName = none ∨ entry.Data FrontendName = some (.str [])) →
      (operands entry start ns).frontend = ofStr "-")
    ∧ ((entry.Data BackendURL = none ∨ entry.Data BackendURL = some (.str [])) →
      (operands entry start ns).backend = ofStr "-") := by
  have hp : parseJWTSubject [] = [] := by decide
  refine ⟨?_, ?_, ?_, ?_, ?_, ?_, ?_, ?_⟩ <;> rintro (h | h)
    <;> simp [operands, h, toLog, quoted, fmtS, fmtV, defaultValue, extractJWTSubject, hp]

/-- Witness for C16 as amended: the example record, which has no referer and no
request count, and the same record with an empty frontend name. -/
theorem operands_defaults_witness :
    (operands exampleEntry ⟨2024, 6, 10, 13, 45, 2, 0⟩ 250000000).referer = ofStr "\"-\""
    ∧ (operands exampleEntry ⟨2024, 6, 10, 13, 45, 2, 0⟩ 250000000).count = ofStr "-"
    ∧ (operands (exampleEntry.set FrontendName (.str [])) ⟨2024, 6, 10, 13, 45, 2, 0⟩
        250000000).frontend = ofStr "-" :=
  ⟨(operands_defaults exampleEntry ⟨2024, 6, 10, 13, 45, 2, 0⟩ 250000000).2.2.2.2.1
      (Or.inl (by decide)),
   (operands_defaults exampleEntry ⟨2024, 6, 10, 13, 45, 2, 0⟩ 250000000).2.2.1
      (Or.inl (by decide)),
   (operands_defaults (exampleEntry.set FrontendName (.str [])) ⟨2024, 6, 10, 13, 45, 2, 0⟩
      250000000).2.2.2.2.2.2.1 (Or.inr (by decide))⟩

/-- Counterexample to C16: the example record without `FrontendName` and `BackendURL`.
Both are printed between double quotes when present, and both render as the bare `-`
when absent, not as `"-"`. -/
theorem Format_absent_frontend_unquoted :
    Format ((exampleEntry.remove FrontendName).remove BackendURL) = .ret
      (ofStr ("10.0.0.1 - - [10/Jun/2024:13:45:02 +0000] \"GET /health HTTP/1.1\" 200 12 "
        ++ "\"-\" \"-\" - - - 250ms\n"), none)
    ∧ (operands ((exampleEntry.remove FrontendName).remove BackendURL)
        ⟨2024, 6, 10, 13, 45, 2, 0⟩ 250000000).frontend = ofStr "-"
    ∧ (operands ((exampleEntry.remove FrontendName).remove BackendURL)
        ⟨2024, 6, 10, 13, 45, 2, 0⟩ 250000000).frontend ≠ ofStr "\"-\""
    ∧ (operands exampleEntry ⟨2024, 6, 10, 13, 45, 2, 0⟩ 250000000).frontend
        = ofStr "\"web\"" := by
  decide

/-- C17, as the code behaves: for `h`, `p`, `s` without full stops, with `h` and `s`
not empty, the subject of `JWT h.p.s` is the result of the steps after the match
applied to `p`; with `h` or `s` empty it is empty. A header with a non-empty subject is
`JWT ` followed by three non-empty segments without full stops, and a header whose
text after the first four bytes does not hold exactly two full stops yields the empty
result. -/
theorem parseJWTSubject_segments (h p g : Bytes)
    (hh : ∀ x ∈ h, x ≠ 46) (hp : ∀ x ∈ p, x ≠ 46) (hg : ∀ x ∈ g, x ≠ 46) :
    (h ≠ [] → g ≠ [] →
      parseJWTSubject (ofStr "JWT " ++ h ++ ofStr "." ++ p ++ ofStr "." ++ g)
        = subjectOfPayload p)
    ∧ (h = [] ∨ g = [] →
      parseJWTSubject (ofStr "JWT " ++ h ++ ofStr "." ++ p ++ ofStr "." ++ g) = [])
    ∧ (∀ s : Bytes, parseJWTSubject s ≠ [] →
        ∃ h' p' g' : Bytes, s = ofStr "JWT " ++ h' ++ ofStr "." ++ p' ++ ofStr "." ++ g'
          ∧ h' ≠ [] ∧ p' ≠ [] ∧ g' ≠ []
          ∧ (∀ x ∈ h', x ≠ 46) ∧ (∀ x ∈ p', x ≠ 46) ∧ (∀ x ∈ g', x ≠ 46)
          ∧ parseJWTSubject s = subjectOfPayload p')
    ∧ (∀ s : Bytes, (s.drop 4).count 46 ≠ 2 → parseJWTSubject s = []) := by
  have h1 : ∀ x ∈ h, notDot x = true := fun x hx => by simpa [notDot] using hh x hx
  have h2 : ∀ x ∈ p, notDot x = true := fun x hx => by simpa [notDot] using hp x hx
  have h3 : ∀ x ∈ g, notDot x = true := fun x hx => by simpa [notDot] using hg x hx
  refine ⟨?_, ?_, ?_, ?_⟩
  · intro hhne hgne
    rw [parseJWTSubject_payload h p g h1 h3 hhne hgne, if_pos (List.all_eq_true.mpr h2)]
  · intro hc
    apply parseJWTSubject_no_match
    rw [authorizationRegexp_segments h p g h1 h2 h3, if_neg]
    rintro ⟨a, _, b⟩
    rcases hc with hc | hc
    · exact a hc
    · exact b hc
  · intro s hs
    have hm : authorizationRegexp s ≠ [] := fun h0 => hs (parseJWTSubject_no_match s h0)
    obtain ⟨h', p', g', e, a, b, c, dh, dp, dg, hr⟩ := authorizationRegexp_match s hm
    refine ⟨h', p', g', e, a, b, c, fun x hx => by simpa [notDot] using dh x hx,
      fun x hx => by simpa [notDot] using dp x hx,
      fun x hx => by simpa [notDot] using dg x hx, ?_⟩
    rw [parseJWTSubject_eq, hr]
    rfl
  · intro s hs
    apply parseJWTSubject_no_match
    by_contra hm
    exact hs (authorizationRegexp_two_dots s hm)

/-- Witness for C17 as amended: the token of `alice`; the same payload behind an empty
header segment; a header of four segments. -/
theorem parseJWTSubject_segments_witness :
    parseJWTSubject (ofStr "JWT " ++ ofStr "h" ++ ofStr "." ++ ofStr "eyJzdWIiOiJhbGljZSJ9"
        ++ ofStr "." ++ ofStr "s") = subjectOfPayload (ofStr "eyJzdWIiOiJhbGljZSJ9")
    ∧ subjectOfPayload (ofStr "eyJzdWIiOiJhbGljZSJ9") = ofStr "alice"
    ∧ parseJWTSubject (ofStr "JWT " ++ [] ++ ofStr "." ++ ofStr "eyJzdWIiOiJhbGljZSJ9"
        ++ ofStr "." ++ ofStr "s") = []
    ∧ parseJWTSubject (ofStr "JWT h.eyJzdWIiOiJhbGljZSJ9.s.t") = [] :=
  ⟨(parseJWTSubject_segments (ofStr "h") (ofStr "eyJzdWIiOiJhbGljZSJ9") (ofStr "s")
      (by decide) (by decide) (by decide)).1 (by decide) (by decide),
   by decide,
   (parseJWTSubject_segments [] (ofStr "eyJzdWIiOiJhbGljZSJ9") (ofStr "s")
      (by decide) (by decide) (by decide)).2.1 (Or.inl rfl),
   (parseJWTSubject_segments [] [] [] (by decide) (by decide) (by decide)).2.2.2
      (ofStr "JWT h.eyJzdWIiOiJhbGljZSJ9.s.t") (by decide)⟩

/-- Counterexample to C17: with an empty header segment the pattern does not match,
so the subject is empty, although the steps after the match give `alice` for the
payload. -/
theorem parseJWTSubject_empty_header_segment :
    (∀ x ∈ ([] : Bytes), x ≠ 46)
    ∧ parseJWTSubject (ofStr "JWT " ++ [] ++ ofStr "." ++ ofStr "eyJzdWIiOiJhbGljZSJ9"
        ++ ofStr "." ++ ofStr "s") = []
    ∧ subjectOfPayload (ofStr "eyJzdWIiOiJhbGljZSJ9") = ofStr "alice"
    ∧ parseJWTSubject (ofStr "JWT " ++ [] ++ ofStr "." ++ ofStr "eyJzdWIiOiJhbGljZSJ9"
        ++ ofStr "." ++ ofStr "s") ≠ subjectOfPayload (ofStr "eyJzdWIiOiJhbGljZSJ9") := by
  decide

/-- C18. `addBase64Padding s` is `s` for a length of remainder 0 modulo 4, `s` with
`==` for remainder 2, `s` with `=` for remainder 3 and empty for remainder 1. The
result has a length that is a multiple of 4, and a non-empty result is `s` followed by
at most two `=`. -/
theorem addBase64Padding_cases (s : Bytes) :
    (s.length % 4 = 0 → addBase64Padding s = s)
    ∧ (s.length % 4 = 2 → addBase64Padding s = s ++ ofStr "==")
    ∧ (s.length % 4 = 3 → addBase64Padding s = s ++ ofStr "=")
    ∧ (s.length % 4 = 1 → addBase64Padding s = [])
    ∧ (addBase64Padding s).length % 4 = 0
    ∧ (addBase64Padding s ≠ [] →
        ∃ k : Nat, k ≤ 2 ∧ addBase64Padding s = s ++ List.replicate k 61) := by
  have e0 : s.length % 4 = 0 → addBase64Padding s = s := by
    intro h
    unfold addBase64Padding
    rw [if_pos h]
  have e2 : s.length % 4 = 2 → addBase64Padding s = s ++ ofStr "==" := by
    intro h
    have c0 : ¬ s.length % 4 = 0 := by omega
    unfold addBase64Padding
    rw [if_neg c0, if_pos h]
  have e3 : s.length % 4 = 3 → addBase64Padding s = s ++ ofStr "=" := by
    intro h
    have c0 : ¬ s.length % 4 = 0 := by omega
    have c2 : ¬ s.length % 4 = 2 := by omega
    unfold addBase64Padding
    rw [if_neg c0, if_neg c2, if_pos h]
  have e1 : s.length % 4 = 1 → addBase64Padding s = [] := by
    intro h
    have c0 : ¬ s.length % 4 = 0 := by omega
    have c2 : ¬ s.length % 4 = 2 := by omega
    have c3 : ¬ s.length % 4 = 3 := by omega
    unfold addBase64Padding
    rw [if_neg c0, if_neg c2, if_neg c3]
  have h4 : s.length % 4 = 0 ∨ s.length % 4 = 1 ∨ s.length % 4 = 2 ∨ s.length % 4 = 3 := by
    omega
  refine ⟨e0, e2, e3, e1, ?_, ?_⟩
  · rcases h4 with h | h | h | h
    · rw [e0 h]
      exact h
    · rw [e1 h]
      rfl
    · rw [e2 h, ofStr_eq2]
      simp only [List.length_append, List.length_cons, List.length_nil]
      omega
    · rw [e3 h, ofStr_eq1]
      simp only [List.length_append, List.length_cons, List.length_nil]
      omega
  · intro hne
    rcases h4 with h | h | h | h
    · exact ⟨0, by omega, by rw [e0 h]; simp⟩
    · exact absurd (e1 h) hne
    · exact ⟨2, by omega, by rw [e2 h, ofStr_eq2]; rfl⟩
    · exact ⟨1, by omega, by rw [e3 h, ofStr_eq1]; rfl⟩

/-- Witness for C18: payloads of six, seven, eight and five characters. -/
theorem addBase64Padding_cases_witness :
    addBase64Padding (ofStr "eyJzdW") = ofStr "eyJzdW=="
    ∧ addBase64Padding (ofStr "eyJzdWI") = ofStr "eyJzdWI="
    ∧ addBase64Padding (ofStr "eyJzdWIi") = ofStr "eyJzdWIi"
    ∧ addBase64Padding (ofStr "eyJzd") = []
    ∧ ∃ k : Nat, k ≤ 2 ∧ addBase64Padding (ofStr "eyJzdW") = ofStr "eyJzdW" ++ List.replicate k 61 :=
  ⟨(addBase64Padding_cases (ofStr "eyJzdW")).2.1 (by decide),
   (addBase64Padding_cases (ofStr "eyJzdWI")).2.2.1 (by decide),
   (addBase64Padding_cases (ofStr "eyJzdWIi")).1 (by decide),
   (addBase64Padding_cases (ofStr "eyJzd")).2.2.2.1 (by decide),
   (addBase64Padding_cases (ofStr "eyJzdW")).2.2.2.2.2 (by decide)⟩

/-- C19. Extraction is invariant under rewriting the payload from the URL-safe to the
standard alphabet: the header with `p` and the header with `p` translated (`-` to `+`,
`_` to `/`) have the same subject. The translation leaves every other byte and the
length of the padded string unchanged, and translating twice is translating once. -/
theorem parseJWTSubject_translate (p : Bytes) :
    parseJWTSubject (ofStr "JWT h." ++ p ++ ofStr ".s")
      = parseJWTSubject (ofStr "JWT h." ++ base64URLReplacer p ++ ofStr ".s")
    ∧ base64URLReplacer p
        = p.map (fun b => if b = 45 then 43 else if b = 95 then 47 else b)
    ∧ (∀ b : Nat, b ≠ 45 → b ≠ 95 → replaceByte b = b)
    ∧ (base64URLReplacer (addBase64Padding p)).length = (addBase64Padding p).length
    ∧ (addBase64Padding (base64URLReplacer p)).length = (addBase64Padding p).length
    ∧ base64URLReplacer (base64URLReplacer p) = base64URLReplacer p := by
  have hform : ∀ q : Bytes, ofStr "JWT h." ++ q ++ ofStr ".s"
      = ofStr "JWT " ++ ofStr "h" ++ ofStr "." ++ q ++ ofStr "." ++ ofStr "s" := by
    intro q
    simp [ofStr, encodeRune]
  have hpar : ∀ q : Bytes, parseJWTSubject (ofStr "JWT h." ++ q ++ ofStr ".s")
      = if q.all notDot = true then subjectOfPayload q else [] := by
    intro q
    rw [hform q]
    exact parseJWTSubject_payload (ofStr "h") q (ofStr "s") (by decide) (by decide)
      (by decide) (by decide)
  refine ⟨?_, rfl, ?_, by simp [base64URLReplacer], ?_, base64URLReplacer_idem p⟩
  · rw [hpar p, hpar (base64URLReplacer p), base64URLReplacer_all_notDot,
      subjectOfPayload_replace]
  · intro b h1 h2
    unfold replaceByte
    rw [if_neg h1, if_neg h2]
  · rw [addBase64Padding_replace]
    simp [base64URLReplacer]

/-- Witness for C19: a payload with `-` and `_`, the base64url text of
`{"sub":"a>b?"}`, and its translation. -/
theorem parseJWTSubject_translate_witness :
    base64URLReplacer (ofStr "eyJzdWIiOiJhPmI_In0") = ofStr "eyJzdWIiOiJhPmI/In0"
    ∧ parseJWTSubject (ofStr "JWT h." ++ ofStr "eyJzdWIiOiJhPmI_In0" ++ ofStr ".s")
        = ofStr "a>b?"
    ∧ parseJWTSubject (ofStr "JWT h." ++ ofStr "eyJzdWIiOiJhPmI_In0" ++ ofStr ".s")
        = parseJWTSubject (ofStr "JWT h." ++ base64URLReplacer (ofStr "eyJzdWIiOiJhPmI_In0")
            ++ ofStr ".s")
    ∧ replaceByte 65 = 65 :=
  ⟨by decide, by decide,
   (parseJWTSubject_translate (ofStr "eyJzdWIiOiJhPmI_In0")).1,
   (parseJWTSubject_translate []).2.2.1 65 (by decide) (by decide)⟩

/-- C20. The extracted subject depends only on the payload segment: two headers with
the same payload and any non-empty header and signature segments without full stops
give the same result, for every default. The result is that of the steps after the
match applied to the payload, in which neither segment occurs. -/
theorem extractJWTSubject_payload_only (h h' g g' p d : Bytes)
    (hh : ∀ x ∈ h, x ≠ 46) (hh' : ∀ x ∈ h', x ≠ 46)
    (hg : ∀ x ∈ g, x ≠ 46) (hg' : ∀ x ∈ g', x ≠ 46)
    (hne : h ≠ []) (hne' : h' ≠ []) (gne : g ≠ []) (gne' : g' ≠ []) :
    extractJWTSubject (some (.str (ofStr "JWT " ++ h ++ ofStr "." ++ p ++ ofStr "." ++ g))) d
      = extractJWTSubject
          (some (.str (ofStr "JWT " ++ h' ++ ofStr "." ++ p ++ ofStr "." ++ g'))) d
    ∧ parseJWTSubject (ofStr "JWT " ++ h ++ ofStr "." ++ p ++ ofStr "." ++ g)
        = (if p.all notDot = true then subjectOfPayload p else []) := by
  have c : ∀ l : Bytes, (∀ x ∈ l, x ≠ 46) → ∀ x ∈ l, notDot x = true :=
    fun l hl x hx => by simpa [notDot] using hl x hx
  have e1 := parseJWTSubject_payload h p g (c h hh) (c g hg) hne gne
  have e2 := parseJWTSubject_payload h' p g' (c h' hh') (c g' hg') hne' gne'
  refine ⟨?_, e1⟩
  unfold extractJWTSubject
  simp only [e1, e2]

/-- Witness for C20: the payload of `alice` under two different headers and
signatures. -/
theorem extractJWTSubject_payload_only_witness :
    extractJWTSubject (some (.str (ofStr "JWT " ++ ofStr "h" ++ ofStr "."
        ++ ofStr "eyJzdWIiOiJhbGljZSJ9" ++ ofStr "." ++ ofStr "s"))) (ofStr "-")
      = extractJWTSubject (some (.str (ofStr "JWT " ++ ofStr "eyJhbGciOiJub25lIn0" ++ ofStr "."
        ++ ofStr "eyJzdWIiOiJhbGljZSJ9" ++ ofStr "." ++ ofStr "forged"))) (ofStr "-")
    ∧ extractJWTSubject (some (.str (ofStr "JWT " ++ ofStr "eyJhbGciOiJub25lIn0" ++ ofStr "."
        ++ ofStr "eyJzdWIiOiJhbGljZSJ9" ++ ofStr "." ++ ofStr "forged"))) (ofStr "-")
      = ofStr "alice" :=
  ⟨(extractJWTSubject_payload_only (ofStr "h") (ofStr "eyJhbGciOiJub25lIn0") (ofStr "s")
      (ofStr "forged") (ofStr "eyJzdWIiOiJhbGljZSJ9") (ofStr "-") (by decide) (by decide)
      (by decide) (by decide) (by decide) (by decide) (by decide) (by decide)).1,
   by decide⟩

end AccessLog
